import Mathlib

/-!
# Loto controller (MSP430): shallow embedding of `main.c` and `function.c`

The four interrupt handlers of `main.c` (`TA0CCR0ISR`, `P1ISR`, `TA1CCR0ISR`,
`TA2CCR0ISR`), the helper `display` and `WriteLed` of `function.c` are embedded
as functions on an explicit machine state.

* Registers and `uint8_t`/`uint16_t` variables are natural numbers; arithmetic
  that can leave the width is reduced `% 256` / `% 65536` explicitly.
* An array access outside the array bounds (undefined behaviour in C) is the
  fault `Fault.outOfBounds`.
* `UCA1TXBUF` is write-only for the program; the state keeps the sequence of
  bytes written to it (oldest first).
* Each read of `CRCINIRES` inside `TA2CCR0ISR` consumes the next element of a
  list of entropy samples; running past the end of the list is the fault
  `Fault.noSample` (the handler has not terminated on that prefix).
-/

namespace Loto

/-! ## Bit constants of the device header `msp430.h` (vendor header) -/

def BIT0 : Nat := 0x01
def BIT1 : Nat := 0x02
def BIT3 : Nat := 0x08
def BIT4 : Nat := 0x10
def BIT5 : Nat := 0x20
/-- Timer_A mode-control bit 0. -/
def MC0 : Nat := 0x0010
/-- Timer_A mode-control bit 1. -/
def MC1 : Nat := 0x0020
/-- Timer_A mode control: up mode. -/
def MC__UP : Nat := 0x0010
/-- Timer_A clear. -/
def TACLR : Nat := 0x0004
/-- Timer_A clock source select: ACLK. -/
def TASSEL__ACLK : Nat := 0x0100

/-- The array length `NUMBERS_LENGTH` of `main.c`. -/
def NUMBERS_LENGTH : Nat := 7

/-- The C statement `reg &= ~mask` on an 8-bit register. -/
def clearBits8 (reg mask : Nat) : Nat := reg &&& (0xFF ^^^ (mask % 256))

/-- The C statement `reg &= ~mask` on a 16-bit register. -/
def clearBits16 (reg mask : Nat) : Nat := reg &&& (0xFFFF ^^^ (mask % 65536))

/-- The macro `DIGIT2ASCII(x)` = `x + '0'`. -/
def DIGIT2ASCII (x : Nat) : Nat := x + 48

/-- The enumeration `enum buttons{NONE, START, STOP, RESET}`. -/
inductive buttons where
  | NONE
  | START
  | STOP
  | RESET
  deriving DecidableEq, Repr

open buttons

/-- Ways in which a handler can fail to produce a next state. -/
inductive Fault where
  /-- an array was indexed outside its bounds (undefined behaviour in C) -/
  | outOfBounds
  /-- the entropy samples supplied ran out before the rejection loop ended -/
  | noSample
  /-- the interrupt source of the event is not enabled / not pending -/
  | notEnabled
  deriving DecidableEq, Repr

/-- The global variables of `main.c` and the peripheral registers it uses. -/
structure State where
  /-- `static volatile uint8_t digits[2]` -/
  digits : Fin 2 → Nat
  /-- `static volatile enum buttons button_pressed` -/
  button_pressed : buttons
  /-- `static volatile uint8_t numbers[NUMBERS_LENGTH]` -/
  numbers : Fin 7 → Nat
  /-- `static volatile uint8_t number_count` -/
  number_count : Nat
  /-- `static volatile uint8_t number` -/
  number : Nat
  /-- `static uint8_t current_digit` of `TA0CCR0ISR` -/
  current_digit : Nat
  /-- port 1 input register -/
  P1IN : Nat
  /-- port 1 interrupt flags -/
  P1IFG : Nat
  /-- port 1 interrupt enable -/
  P1IE : Nat
  P2OUT : Nat
  P3OUT : Nat
  P4OUT : Nat
  P8OUT : Nat
  /-- bit 4 is SEL2 (active low) -/
  P6OUT : Nat
  /-- bit 0 is SEL1 (active low) -/
  P7OUT : Nat
  /-- control register of the debounce timer -/
  TA1CTL : Nat
  /-- control register of the draw (rng) timer -/
  TA2CTL : Nat
  /-- the bytes written to the UART transmit buffer, oldest first -/
  UCA1TXBUF : List Nat

/-! ## `display` -/

/-- The `for (tmp = 0; tmp < 2; tmp++)` loop of `display`: `k` iterations are
left, `tmp` is the loop counter, `nr` the remaining value. -/
def displayLoop : Nat → Nat → Nat → (Fin 2 → Nat) → (Fin 2 → Nat)
  | 0, _, _, d => d
  | k + 1, tmp, nr, d =>
    if h : tmp < 2 then
      displayLoop k (tmp + 1) (nr / 10) (Function.update d ⟨tmp, h⟩ (nr % 10))
    else d

/-- `static inline void display(const uint16_t number)`. -/
def display (s : State) (number : Nat) : State :=
  { s with digits := displayLoop 2 0 (number % 65536) s.digits }

/-! ## `WriteLed` (function.c) -/

def segtab2 : List Nat :=
  [0x48, 0x40, 0x08, 0x40, 0x40, 0x40, 0x48, 0x40, 0x48, 0x40, 0x08, 0x48]

def segtab3 : List Nat :=
  [0x80, 0x00, 0x80, 0x80, 0x00, 0x80, 0x80, 0x80, 0x80, 0x80, 0x80, 0x00]

def segtab4 : List Nat :=
  [0x09, 0x08, 0x08, 0x08, 0x09, 0x01, 0x01, 0x08, 0x09, 0x09, 0x01, 0x00]

def segtab8 : List Nat :=
  [0x02, 0x00, 0x06, 0x06, 0x04, 0x06, 0x06, 0x00, 0x06, 0x06, 0x06, 0x02]

/-- `void WriteLed(unsigned int digit)`; a table index past the end is
`Fault.outOfBounds`. -/
def WriteLed (s : State) (digit : Nat) : Except Fault State :=
  match segtab2[digit]?, segtab3[digit]?, segtab4[digit]?, segtab8[digit]? with
  | some t2, some t3, some t4, some t8 =>
    .ok { s with
      P2OUT := clearBits8 (s.P2OUT ||| 0x48) t2
      P3OUT := clearBits8 (s.P3OUT ||| 0x80) t3
      P4OUT := clearBits8 (s.P4OUT ||| 0x09) t4
      P8OUT := clearBits8 (s.P8OUT ||| 0x06) t8 }
  | _, _, _, _ => .error Fault.outOfBounds

/-! ## `TA0CCR0ISR`: display multiplexing -/

/-- The read `digits[current_digit]`. -/
def readDigit (s : State) : Except Fault Nat :=
  if h : s.current_digit < 2 then .ok (s.digits ⟨s.current_digit, h⟩)
  else .error Fault.outOfBounds

/-- The interrupt handler `TA0CCR0ISR`. -/
def TA0CCR0ISR (s : State) : Except Fault State := do
  let s1 ←
    if s.current_digit = 1 then do
      let s1 := { s with P6OUT := s.P6OUT ||| BIT4 }
      let s2 ← WriteLed s1 (← readDigit s1)
      pure { s2 with P7OUT := clearBits8 s2.P7OUT BIT0 }
    else if s.current_digit = 0 then do
      let s1 := { s with P7OUT := s.P7OUT ||| BIT0 }
      let s2 ← WriteLed s1 (← readDigit s1)
      pure { s2 with P6OUT := clearBits8 s2.P6OUT BIT4 }
    else pure s
  pure { s1 with current_digit := ((s1.current_digit + 1) % 256) &&& 0x01 }

/-! ## `P1ISR`: button edge handler -/

/-- The interrupt handler `P1ISR`. -/
def P1ISR (s : State) : State :=
  if s.P1IFG &&& BIT4 ≠ 0 then
    { s with
      button_pressed := STOP
      TA1CTL := s.TA1CTL ||| MC__UP
      P1IFG := clearBits8 s.P1IFG BIT4
      P1IE := clearBits8 s.P1IE (BIT4 ||| BIT5 ||| BIT1) }
  else if s.P1IFG &&& BIT5 ≠ 0 then
    { s with
      button_pressed := START
      TA1CTL := s.TA1CTL ||| MC__UP
      P1IFG := clearBits8 s.P1IFG BIT5
      P1IE := clearBits8 s.P1IE (BIT4 ||| BIT5 ||| BIT1) }
  else if s.P1IFG &&& BIT1 ≠ 0 then
    { s with
      button_pressed := RESET
      TA1CTL := s.TA1CTL ||| MC__UP
      P1IFG := clearBits8 s.P1IFG BIT1
      P1IE := clearBits8 s.P1IE (BIT4 ||| BIT5 ||| BIT1) }
  else s

/-! ## `TA1CCR0ISR`: debounce and dispatch -/

/-- The loop `for(i = 0; i < NUMBERS_LENGTH; i++) numbers[i] = 0;`: `k`
iterations are left and `i` is the loop counter. -/
def clearLoop : Nat → Nat → (Fin 7 → Nat) → (Fin 7 → Nat)
  | 0, _, a => a
  | k + 1, i, a =>
    if h : i < 7 then clearLoop k (i + 1) (Function.update a ⟨i, h⟩ 0) else a

/-- The four statements that end `TA1CCR0ISR` on every path: stop and clear the
debounce timer, clear the three button flags, enable the three button
interrupts. -/
def debounceTail (s : State) : State :=
  { s with
    TA1CTL := clearBits16 s.TA1CTL (MC0 ||| MC1) ||| TACLR
    P1IFG := clearBits8 s.P1IFG (BIT4 ||| BIT5 ||| BIT1)
    P1IE := s.P1IE ||| (BIT4 ||| BIT5 ||| BIT1) }

/-- The interrupt handler `TA1CCR0ISR`. The store `numbers[number_count]` with
`number_count ≥ 7` is outside the array: `Fault.outOfBounds`. -/
def TA1CCR0ISR (s : State) : Except Fault State :=
  if s.P1IN &&& BIT4 = 0 ∧ s.button_pressed = STOP then
    if h : s.number_count < 7 then
      .ok (debounceTail { s with
        TA2CTL := clearBits16 s.TA2CTL (MC0 ||| MC1) ||| TACLR
        UCA1TXBUF := s.UCA1TXBUF ++ [DIGIT2ASCII s.number % 256]
        numbers := Function.update s.numbers ⟨s.number_count, h⟩ s.number
        number_count := (s.number_count + 1) % 256
        button_pressed := NONE })
    else .error Fault.outOfBounds
  else if s.P1IN &&& BIT5 = 0 ∧ s.button_pressed = START then
    if s.number_count = 6 then
      .ok (debounceTail { s with
        digits := Function.update (Function.update s.digits 0 10) 1 11
        UCA1TXBUF := s.UCA1TXBUF ++ [10]
        button_pressed := NONE })
    else
      .ok (debounceTail { s with
        TA2CTL := s.TA2CTL ||| MC__UP
        button_pressed := NONE })
  else if s.P1IN &&& BIT1 = 0 ∧ s.button_pressed = RESET then
    .ok (debounceTail { s with
      numbers := clearLoop NUMBERS_LENGTH 0 s.numbers
      number_count := 0
      TA2CTL := s.TA2CTL ||| MC__UP
      UCA1TXBUF := s.UCA1TXBUF ++ [10]
      button_pressed := NONE })
  else .ok (debounceTail s)

/-! ## `TA2CCR0ISR`: the draw (rejection sampling) -/

/-- The inner loop `for(i = 0; i < number_count; i++)` of `TA2CCR0ISR`: `k`
iterations are left, `i` is the loop counter and `rep` the current value of
`repeated_number`. Reading `numbers[i]` with `i ≥ 7` is outside the array. -/
def scanLoop (numbers : Fin 7 → Nat) (number : Nat) : Nat → Nat → Bool → Except Fault Bool
  | 0, _, rep => .ok rep
  | k + 1, i, rep =>
    if h : i < 7 then
      scanLoop numbers number k (i + 1) (if numbers ⟨i, h⟩ = number then true else rep)
    else .error Fault.outOfBounds

/-- The loop `while(repeated_number)` of `TA2CCR0ISR`; each iteration reads
`CRCINIRES` once, which is the next element of the sample list. -/
def drawLoop (s : State) : List Nat → Except Fault State
  | [] => .error Fault.noSample
  | x :: rest =>
    let s1 := { s with number := x &&& 0x001f }
    match scanLoop s1.numbers s1.number s1.number_count 0 false with
    | .error e => .error e
    | .ok true => drawLoop s1 rest
    | .ok false => .ok s1

/-- The interrupt handler `TA2CCR0ISR`, run on the given entropy samples. -/
def TA2CCR0ISR (s : State) (samples : List Nat) : Except Fault State :=
  match drawLoop s samples with
  | .error e => .error e
  | .ok s1 => .ok (display s1 s1.number)

/-! ## Start-up state and event sequences -/

/-- The state in which `main` enters its idle loop: the initialised globals, the
register values written by `main`, no button held (`P1IN` all high), and `0` in
the output registers whose reset value the program does not set. -/
def init : State where
  digits := fun _ => 0
  button_pressed := NONE
  numbers := fun _ => 0
  number_count := 0
  number := 0
  current_digit := 0
  P1IN := 0xFF
  P1IFG := 0
  P1IE := BIT1 ||| BIT4 ||| BIT5
  P2OUT := 0
  P3OUT := 0
  P4OUT := 0
  P8OUT := 0
  P6OUT := BIT4
  P7OUT := BIT0
  TA1CTL := TASSEL__ACLK
  TA2CTL := TASSEL__ACLK ||| MC__UP
  UCA1TXBUF := []

/-- A timer counts (and raises its compare interrupt) when its mode-control
field `MC1:MC0` is not zero. -/
def running (ctl : Nat) : Prop := ctl &&& (MC0 ||| MC1) ≠ 0

instance (ctl : Nat) : Decidable (running ctl) := by
  unfold running; infer_instance

/-- What can happen between two visits of the idle loop. -/
inductive Event where
  /-- the display timer fires: `TA0CCR0ISR` -/
  | refresh
  /-- the port-1 pins take the value `v`; a falling edge on P1.1, P1.4 or P1.5
  latches the interrupt flag of that line -/
  | pins (v : Nat)
  /-- a latched, enabled button flag is served: `P1ISR` -/
  | edge
  /-- the debounce timer fires: `TA1CCR0ISR` -/
  | debounce
  /-- the draw timer fires: `TA2CCR0ISR` reading the given entropy samples -/
  | draw (samples : List Nat)

/-- One event, run to completion. -/
def step (s : State) : Event → Except Fault State
  | .refresh => TA0CCR0ISR s
  | .pins v =>
    .ok { s with
      P1IN := v % 256
      P1IFG := s.P1IFG ||| (s.P1IN &&& (0xFF ^^^ (v % 256)) &&& (BIT1 ||| BIT4 ||| BIT5)) }
  | .edge =>
    if s.P1IFG &&& s.P1IE &&& (BIT1 ||| BIT4 ||| BIT5) ≠ 0 then .ok (P1ISR s)
    else .error Fault.notEnabled
  | .debounce =>
    if running s.TA1CTL then TA1CCR0ISR s else .error Fault.notEnabled
  | .draw samples =>
    if running s.TA2CTL then TA2CCR0ISR s samples else .error Fault.notEnabled

/-- A sequence of events, each run to completion, first to last. -/
def run (s : State) : List Event → Except Fault State
  | [] => .ok s
  | e :: es =>
    match step s e with
    | .error f => .error f
    | .ok s1 => run s1 es

/-- The events of one confirmed press of the button on line `bit`: the line
falls, the edge is served, the line is still low when the debounce timer
fires, and the button is released afterwards. -/
def press (bit : Nat) : List Event :=
  [.pins (0xFF ^^^ bit), .edge, .debounce, .pins 0xFF]

/-- The drawn values `numbers[0..number_count)` as a list. -/
def drawn (s : State) : List Nat :=
  ((List.finRange 7).filter (fun i => i.val < s.number_count)).map s.numbers

/-- The pending action of `s` is confirmed when `TA1CCR0ISR` runs: the line of
`button_pressed` reads low (one of the three guards of the handler holds). -/
def confirmed (s : State) : Prop :=
  (s.P1IN &&& BIT4 = 0 ∧ s.button_pressed = STOP) ∨
  (s.P1IN &&& BIT5 = 0 ∧ s.button_pressed = START) ∨
  (s.P1IN &&& BIT1 = 0 ∧ s.button_pressed = RESET)

instance (s : State) : Decidable (confirmed s) := by
  unfold confirmed; infer_instance

/-- The pending action of `s` has bounced when `TA1CCR0ISR` runs: an action is
pending and its own line reads high. -/
def bounced (s : State) : Prop :=
  (s.button_pressed = STOP ∧ s.P1IN &&& BIT4 ≠ 0) ∨
  (s.button_pressed = START ∧ s.P1IN &&& BIT5 ≠ 0) ∨
  (s.button_pressed = RESET ∧ s.P1IN &&& BIT1 ≠ 0)

instance (s : State) : Decidable (bounced s) := by
  unfold bounced; infer_instance

/-- The three button lines P1.4, P1.5, P1.1 of which exactly one has its
interrupt flag set in `ifg`. -/
def oneFlag (ifg : Nat) : Prop :=
  (ifg &&& BIT4 ≠ 0 ∧ ifg &&& BIT5 = 0 ∧ ifg &&& BIT1 = 0) ∨
  (ifg &&& BIT4 = 0 ∧ ifg &&& BIT5 ≠ 0 ∧ ifg &&& BIT1 = 0) ∨
  (ifg &&& BIT4 = 0 ∧ ifg &&& BIT5 = 0 ∧ ifg &&& BIT1 ≠ 0)

instance (ifg : Nat) : Decidable (oneFlag ifg) := by
  unfold oneFlag; infer_instance

/-- A game played as intended up to six draws: the first candidate is stopped,
then five times Start, one draw tick, Stop; the candidates are 17, 3, 8, 21,
30, 12. -/
def sixDraws : List Event :=
  [.draw [17]] ++ press BIT4 ++
  press BIT5 ++ [.draw [17, 3]] ++ press BIT4 ++
  press BIT5 ++ [.draw [8]] ++ press BIT4 ++
  press BIT5 ++ [.draw [3, 8, 21]] ++ press BIT4 ++
  press BIT5 ++ [.draw [30]] ++ press BIT4 ++
  press BIT5 ++ [.draw [12]] ++ press BIT4

/-- A projection of the outcome of a handler or event sequence: `none` when it
faulted. -/
def observe {α : Type} (r : Except Fault State) (f : State → α) : Option α :=
  match r with
  | .ok s => some (f s)
  | .error _ => none


/-- The port-1 line whose level `TA1CCR0ISR` tests for each pending action (the
guards `(P1IN & BIT4) == 0 && button_pressed == STOP`, and so on); no line for
`NONE`. -/
def lineOf : buttons → Nat
  | STOP => BIT4
  | START => BIT5
  | RESET => BIT1
  | NONE => 0

/-- What `TA1CCR0ISR` does once the guard of the branch of `button_pressed`
holds: the body of that one branch followed by the common tail (for `NONE`
there is no branch, only the tail). -/
def dispatched (s : State) : Except Fault State :=
  match s.button_pressed with
  | STOP =>
    if h : s.number_count < 7 then
      .ok (debounceTail { s with
        TA2CTL := clearBits16 s.TA2CTL (MC0 ||| MC1) ||| TACLR
        UCA1TXBUF := s.UCA1TXBUF ++ [DIGIT2ASCII s.number % 256]
        numbers := Function.update s.numbers ⟨s.number_count, h⟩ s.number
        number_count := (s.number_count + 1) % 256
        button_pressed := NONE })
    else .error Fault.outOfBounds
  | START =>
    if s.number_count = 6 then
      .ok (debounceTail { s with
        digits := Function.update (Function.update s.digits 0 10) 1 11
        UCA1TXBUF := s.UCA1TXBUF ++ [10]
        button_pressed := NONE })
    else
      .ok (debounceTail { s with
        TA2CTL := s.TA2CTL ||| MC__UP
        button_pressed := NONE })
  | RESET =>
    .ok (debounceTail { s with
      numbers := clearLoop NUMBERS_LENGTH 0 s.numbers
      number_count := 0
      TA2CTL := s.TA2CTL ||| MC__UP
      UCA1TXBUF := s.UCA1TXBUF ++ [10]
      button_pressed := NONE })
  | NONE => .ok (debounceTail s)

/-- The value `v` is among the drawn numbers `numbers[0..number_count)`. -/
def excluded (s : State) (v : Nat) : Prop :=
  ∃ i : Fin 7, i.val < s.number_count ∧ s.numbers i = v

instance (s : State) (v : Nat) : Decidable (excluded s v) := by
  unfold excluded; infer_instance

/-- The three button lines of port 1, `BIT4 | BIT5 | BIT1`. -/
def BUTTONS : Nat := BIT4 ||| BIT5 ||| BIT1

/-- The button edge interrupts are all disabled while the debounce timer runs
and all enabled while it is stopped. -/
def maskedIffRunning (s : State) : Prop :=
  (s.P1IE &&& BUTTONS = 0 ∧ running s.TA1CTL) ∨
  (s.P1IE &&& BUTTONS = BUTTONS ∧ ¬ running s.TA1CTL)

/-- Facts that hold in the start-up state and after every event: the count
stays inside the array, the digit buffer holds table indices, the display
position is 0 or 1, and edge masking follows the debounce timer. -/
def Inv (s : State) : Prop :=
  s.number_count ≤ 7 ∧ (∀ i, s.digits i ≤ 11) ∧ s.current_digit < 2 ∧ maskedIffRunning s

/-- Digit select SEL1 (P7.0, active low) is active. -/
def sel1Active (s : State) : Prop := s.P7OUT &&& BIT0 = 0

/-- Digit select SEL2 (P6.4, active low) is active. -/
def sel2Active (s : State) : Prop := s.P6OUT &&& BIT4 = 0

instance (s : State) : Decidable (sel1Active s) := by
  unfold sel1Active; infer_instance

instance (s : State) : Decidable (sel2Active s) := by
  unfold sel2Active; infer_instance

/-- The states that `TA0CCR0ISR` passes through, statement by statement: after
the previous select is turned off, after `WriteLed` (which writes none of the
select ports), after the current select is turned on, after `current_digit` is
advanced. The last element is the state in which the handler returns. -/
def TA0CCR0ISR_steps (s : State) : Except Fault (List State) :=
  if s.current_digit = 1 then do
    let s1 := { s with P6OUT := s.P6OUT ||| BIT4 }
    let s2 ← WriteLed s1 (← readDigit s1)
    let s3 := { s2 with P7OUT := clearBits8 s2.P7OUT BIT0 }
    pure [s1, s2, s3, { s3 with current_digit := ((s3.current_digit + 1) % 256) &&& 0x01 }]
  else if s.current_digit = 0 then do
    let s1 := { s with P7OUT := s.P7OUT ||| BIT0 }
    let s2 ← WriteLed s1 (← readDigit s1)
    let s3 := { s2 with P6OUT := clearBits8 s2.P6OUT BIT4 }
    pure [s1, s2, s3, { s3 with current_digit := ((s3.current_digit + 1) % 256) &&& 0x01 }]
  else pure [{ s with current_digit := ((s.current_digit + 1) % 256) &&& 0x01 }]

/-- The state reached from the start-up state by the events `tr` (the start-up
state itself when an event faults). -/
def stateAfter (tr : List Event) : State :=
  match run init tr with
  | .ok s => s
  | .error _ => init

/-- Two regular draws, 17 and 3, followed by a confirmed Start. -/
def twoDraws : List Event :=
  [.draw [17]] ++ press BIT4 ++ press BIT5 ++ [.draw [3]] ++ press BIT4 ++ press BIT5

/-- Six regular draws, the confirmed Start that ends the game, and one refresh
tick. -/
def finishedGame : List Event :=
  sixDraws ++ press BIT5 ++ [.refresh]

/-- The drawn-number slots and the current candidate all hold 5-bit values. -/
def inRange (s : State) : Prop :=
  (∀ i, s.numbers i ≤ 31) ∧ s.number ≤ 31

/-- One regular draw of 17, followed by a confirmed Start. -/
def oneDraw : List Event :=
  [.draw [17]] ++ press BIT4 ++ press BIT5

/-! ## Bit-mask facts -/

theorem bits_and_and_eq_zero (x a b : Nat) (h : a &&& b = 0) : x &&& a &&& b = 0 := by
  rw [Nat.and_assoc, h, Nat.and_zero]

theorem bits_or_and_ne_zero (x a b : Nat) (h : a &&& b ≠ 0) : (x ||| a) &&& b ≠ 0 := by
  intro h0
  apply h
  apply Nat.eq_of_testBit_eq
  intro i
  have hi := congrArg (fun n => n.testBit i) h0
  simp at hi ⊢
  tauto

theorem bits_clear_or_and_eq_zero (x a c b : Nat) (h1 : a &&& b = 0) (h2 : c &&& b = 0) :
    (x &&& a ||| c) &&& b = 0 := by
  apply Nat.eq_of_testBit_eq
  intro i
  have e1 := congrArg (fun n => n.testBit i) h1
  have e2 := congrArg (fun n => n.testBit i) h2
  simp at e1 e2 ⊢
  tauto

theorem running_or_MC__UP (x : Nat) : running (x ||| MC__UP) :=
  bits_or_and_ne_zero x MC__UP (MC0 ||| MC1) (by decide)

theorem not_running_stopped (x : Nat) :
    ¬ running (clearBits16 x (MC0 ||| MC1) ||| TACLR) := by
  unfold running clearBits16
  exact not_not.mpr (bits_clear_or_and_eq_zero x _ TACLR (MC0 ||| MC1) (by decide) (by decide))

/-! ## The paths of `TA1CCR0ISR` -/

theorem TA1CCR0ISR_stop (s : State) (hp : s.P1IN &&& BIT4 = 0) (hb : s.button_pressed = STOP)
    (hc : s.number_count < 7) :
    TA1CCR0ISR s = .ok (debounceTail { s with
        TA2CTL := clearBits16 s.TA2CTL (MC0 ||| MC1) ||| TACLR
        UCA1TXBUF := s.UCA1TXBUF ++ [DIGIT2ASCII s.number % 256]
        numbers := Function.update s.numbers ⟨s.number_count, hc⟩ s.number
        number_count := (s.number_count + 1) % 256
        button_pressed := NONE }) := by
  unfold TA1CCR0ISR
  simp [hp, hb, hc]

theorem TA1CCR0ISR_start_finished (s : State) (hp : s.P1IN &&& BIT5 = 0)
    (hb : s.button_pressed = START) (hc : s.number_count = 6) :
    TA1CCR0ISR s = .ok (debounceTail { s with
        digits := Function.update (Function.update s.digits 0 10) 1 11
        UCA1TXBUF := s.UCA1TXBUF ++ [10]
        button_pressed := NONE }) := by
  unfold TA1CCR0ISR
  simp [hp, hb, hc]

theorem TA1CCR0ISR_start_draw (s : State) (hp : s.P1IN &&& BIT5 = 0)
    (hb : s.button_pressed = START) (hc : s.number_count ≠ 6) :
    TA1CCR0ISR s = .ok (debounceTail { s with
        TA2CTL := s.TA2CTL ||| MC__UP
        button_pressed := NONE }) := by
  unfold TA1CCR0ISR
  simp [hp, hb, hc]

theorem clearLoop_all (a : Fin 7 → Nat) (i : Fin 7) : clearLoop NUMBERS_LENGTH 0 a i = 0 := by
  fin_cases i <;> simp [clearLoop, NUMBERS_LENGTH, Function.update]

theorem TA1CCR0ISR_reset (s : State) (hp : s.P1IN &&& BIT1 = 0)
    (hb : s.button_pressed = RESET) :
    TA1CCR0ISR s = .ok (debounceTail { s with
      numbers := clearLoop NUMBERS_LENGTH 0 s.numbers
      number_count := 0
      TA2CTL := s.TA2CTL ||| MC__UP
      UCA1TXBUF := s.UCA1TXBUF ++ [10]
      button_pressed := NONE }) := by
  unfold TA1CCR0ISR
  simp [hp, hb]

theorem TA1CCR0ISR_bounce (s : State) (h : ¬ confirmed s) :
    TA1CCR0ISR s = .ok (debounceTail s) := by
  unfold confirmed at h
  unfold TA1CCR0ISR
  simp only [not_or] at h
  simp [h.1, h.2.1, h.2.2]

/-! ## The rejection loop of `TA2CCR0ISR` -/

theorem scanLoop_ok (numbers : Fin 7 → Nat) (number : Nat) :
    ∀ (k i : Nat) (rep r : Bool), scanLoop numbers number k i rep = .ok r →
      (r = true ↔
        rep = true ∨ ∃ j, ∃ hj : j < 7, i ≤ j ∧ j < i + k ∧ numbers ⟨j, hj⟩ = number) := by
  intro k
  induction k with
  | zero =>
    intro i rep r h
    simp only [scanLoop, Except.ok.injEq] at h
    subst h
    constructor
    · intro h; exact Or.inl h
    · rintro (h | ⟨j, hj, h1, h2, _⟩)
      · exact h
      · omega
  | succ k ih =>
    intro i rep r h
    unfold scanLoop at h
    by_cases hi : i < 7
    · simp only [hi, dite_true] at h
      have := ih _ _ _ h
      rw [this]
      constructor
      · rintro (h1 | ⟨j, hj, h1, h2, h3⟩)
        · by_cases he : numbers ⟨i, hi⟩ = number
          · exact Or.inr ⟨i, hi, le_refl _, by omega, he⟩
          · simp only [he, if_false] at h1
            exact Or.inl h1
        · exact Or.inr ⟨j, hj, by omega, by omega, h3⟩
      · rintro (h1 | ⟨j, hj, h1, h2, h3⟩)
        · left
          subst h1
          simp
        · by_cases hji : j = i
          · subst hji
            left
            simp [h3]
          · exact Or.inr ⟨j, hj, by omega, by omega, h3⟩
    · simp [hi] at h

theorem drawLoop_ok (samples : List Nat) :
    ∀ (s s' : State), drawLoop s samples = .ok s' →
      s'.number < 32 ∧
      scanLoop s'.numbers s'.number s'.number_count 0 false = .ok false ∧
      s'.numbers = s.numbers ∧ s'.number_count = s.number_count := by
  induction samples with
  | nil => intro s s' h; simp [drawLoop] at h
  | cons x rest ih =>
    intro s s' h
    simp only [drawLoop] at h
    split at h
    · simp at h
    · obtain ⟨h1, h2, h3, h4⟩ := ih _ _ h
      exact ⟨h1, h2, h3, h4⟩
    · rename_i heq
      simp only [Except.ok.injEq] at h
      subst h
      refine ⟨?_, heq, rfl, rfl⟩
      show x &&& 31 < 32
      exact Nat.lt_succ_of_le Nat.and_le_right

/-! ## Properties of the handlers -/

/-- C1 (the code at the failing inputs): from the start-up state, a draw of 17
followed by two confirmed Stops stores 17 twice (`number_count = 2`, drawn set
`[17, 17]`); and a seventh confirmed Stop after six regular draws makes
`number_count = 7 > 6` with the last value stored twice. -/
theorem stop_repeated_breaks_drawn_set :
    observe (run init ([.draw [17]] ++ press BIT4 ++ press BIT4))
      (fun s => (s.number_count, drawn s)) = some (2, [17, 17]) ∧
    observe (run init (sixDraws ++ press BIT4))
      (fun s => (s.number_count, drawn s)) = some (7, [17, 3, 8, 21, 30, 12, 12]) := by
  decide

/-- C2: whenever `TA2CCR0ISR` terminates on a state and a sequence of entropy
samples, the accepted candidate (the final `number`) is a 5-bit value in
[0,31] and differs from every element of `numbers[0..number_count)`; the
handler changes neither `numbers` nor `number_count`, so this is the drawn set
at the moment of acceptance. -/
theorem TA2CCR0ISR_candidate_fresh (s s' : State) (samples : List Nat)
    (h : TA2CCR0ISR s samples = .ok s') :
    s'.number ≤ 31 ∧
    (∀ i, ∀ hi : i < 7, i < s'.number_count → s'.numbers ⟨i, hi⟩ ≠ s'.number) ∧
    s'.numbers = s.numbers ∧ s'.number_count = s.number_count := by
  unfold TA2CCR0ISR at h
  split at h
  · simp at h
  · rename_i s1 heq
    simp only [Except.ok.injEq] at h
    subst h
    obtain ⟨h1, h2, h3, h4⟩ := drawLoop_ok samples s s1 heq
    refine ⟨Nat.le_of_lt_succ h1, ?_, h3, h4⟩
    intro i hi hlt heq2
    have := (scanLoop_ok s1.numbers s1.number _ _ _ _ h2).mpr
      (Or.inr ⟨i, hi, Nat.zero_le _, by simpa [display] using hlt, by simpa [display] using heq2⟩)
    simp at this

/-- Witness for C2: with 17 already drawn, the samples 17, 49 (= 17 mod 32)
and 3 make the handler terminate with candidate 3. -/
theorem TA2CCR0ISR_candidate_fresh_witness :
    TA2CCR0ISR { init with numbers := ![17, 0, 0, 0, 0, 0, 0], number_count := 1 } [17, 49, 3] =
      .ok (display { init with numbers := ![17, 0, 0, 0, 0, 0, 0], number_count := 1,
                               number := 3 } 3) ∧
    ∃ s' : State, s'.number = 3 ∧ s'.number ≤ 31 ∧
      (∀ i, ∀ hi : i < 7, i < s'.number_count → s'.numbers ⟨i, hi⟩ ≠ s'.number) ∧
      s'.numbers = ![17, 0, 0, 0, 0, 0, 0] ∧ s'.number_count = 1 :=
  ⟨rfl, _, rfl, TA2CCR0ISR_candidate_fresh
    { init with numbers := ![17, 0, 0, 0, 0, 0, 0], number_count := 1 }
    (display { init with numbers := ![17, 0, 0, 0, 0, 0, 0], number_count := 1, number := 3 } 3)
    [17, 49, 3] rfl⟩

/-- C3: when `TA1CCR0ISR` runs while the line of the pending action reads
high (a bounced press), it returns without dispatching: `numbers`,
`number_count`, `number`, `digits` and the draw-timer register are unchanged
and no byte is written to the serial sink. -/
theorem TA1CCR0ISR_bounced_no_dispatch (s : State) (h : bounced s) :
    ∃ s', TA1CCR0ISR s = .ok s' ∧ s'.numbers = s.numbers ∧
      s'.number_count = s.number_count ∧ s'.number = s.number ∧ s'.digits = s.digits ∧
      s'.TA2CTL = s.TA2CTL ∧ s'.UCA1TXBUF = s.UCA1TXBUF := by
  have hn : ¬ confirmed s := by
    unfold bounced at h
    unfold confirmed
    rintro (⟨h1, h2⟩ | ⟨h1, h2⟩ | ⟨h1, h2⟩) <;> rcases h with ⟨h3, h4⟩ | ⟨h3, h4⟩ | ⟨h3, h4⟩ <;>
      simp_all
  exact ⟨_, TA1CCR0ISR_bounce s hn, rfl, rfl, rfl, rfl, rfl, rfl⟩

/-- Witness for C3: Stop is pending after a drawn 17 and line P1.4 reads high
again. -/
theorem TA1CCR0ISR_bounced_no_dispatch_witness :
    bounced { init with button_pressed := STOP, number := 17 } ∧
    ∃ s', TA1CCR0ISR { init with button_pressed := STOP, number := 17 } = .ok s' ∧
      s'.numbers = init.numbers ∧ s'.number_count = 0 ∧ s'.number = 17 ∧
      s'.digits = init.digits ∧ s'.TA2CTL = init.TA2CTL ∧ s'.UCA1TXBUF = [] :=
  ⟨by decide, TA1CCR0ISR_bounced_no_dispatch _ (by decide)⟩

/-- C4: after a confirmed Reset (`button_pressed == RESET`, P1.1 low) all seven
slots of `numbers` are 0, `number_count` is 0, the draw timer is running and
exactly one byte, line feed (10), has been appended to the serial output. -/
theorem TA1CCR0ISR_reset_clears (s : State) (hp : s.P1IN &&& BIT1 = 0)
    (hb : s.button_pressed = RESET) :
    ∃ s', TA1CCR0ISR s = .ok s' ∧ (∀ i, s'.numbers i = 0) ∧ s'.number_count = 0 ∧
      running s'.TA2CTL ∧ s'.UCA1TXBUF = s.UCA1TXBUF ++ [10] :=
  ⟨_, TA1CCR0ISR_reset s hp hb, fun i => clearLoop_all s.numbers i, rfl,
    running_or_MC__UP s.TA2CTL, rfl⟩

/-- Witness for C4: Reset confirmed with three numbers drawn and the draw timer
stopped. -/
theorem TA1CCR0ISR_reset_clears_witness :
    ∃ s', TA1CCR0ISR { init with
        button_pressed := RESET, P1IN := 0xFD, numbers := ![17, 3, 8, 0, 0, 0, 0],
        number_count := 3, TA2CTL := TASSEL__ACLK, UCA1TXBUF := [65, 51, 56] } = .ok s' ∧
      (∀ i, s'.numbers i = 0) ∧ s'.number_count = 0 ∧ running s'.TA2CTL ∧
      s'.UCA1TXBUF = [65, 51, 56] ++ [10] :=
  TA1CCR0ISR_reset_clears _ (by decide) rfl

/-- C5: with `number_count == 6`, a confirmed Start writes the end-of-game
codes `digits[0] = 10`, `digits[1] = 11`, appends exactly one line-feed byte
to the serial output, leaves the draw-timer register untouched (the timer is
not started) and leaves `numbers` and `number_count` unchanged. -/
theorem TA1CCR0ISR_start_at_six (s : State) (hc : s.number_count = 6)
    (hp : s.P1IN &&& BIT5 = 0) (hb : s.button_pressed = START) :
    ∃ s', TA1CCR0ISR s = .ok s' ∧ s'.digits 0 = 10 ∧ s'.digits 1 = 11 ∧
      s'.UCA1TXBUF = s.UCA1TXBUF ++ [10] ∧ s'.TA2CTL = s.TA2CTL ∧
      s'.numbers = s.numbers ∧ s'.number_count = s.number_count :=
  ⟨_, TA1CCR0ISR_start_finished s hp hb hc, by simp [debounceTail, Function.update],
    by simp [debounceTail, Function.update], rfl, rfl, rfl, rfl⟩

/-- Witness for C5: Start confirmed after six draws, draw timer stopped. -/
theorem TA1CCR0ISR_start_at_six_witness :
    ∃ s', TA1CCR0ISR { init with
        button_pressed := START, P1IN := 0xDF, numbers := ![17, 3, 8, 21, 30, 12, 0],
        number_count := 6, TA2CTL := TASSEL__ACLK ||| TACLR } = .ok s' ∧
      s'.digits 0 = 10 ∧ s'.digits 1 = 11 ∧ s'.UCA1TXBUF = [] ++ [10] ∧
      s'.TA2CTL = TASSEL__ACLK ||| TACLR ∧ s'.numbers = ![17, 3, 8, 21, 30, 12, 0] ∧
      s'.number_count = 6 :=
  TA1CCR0ISR_start_at_six _ rfl (by decide) rfl

/-- C6 (the code at the failing input): after six regular draws a confirmed
Start finishes the game (`number_count = 6`, `digits = 10, 11`, draw timer not
running); a confirmed Stop and a confirmed Start later, with no Reset, the
count is 7 and the draw timer is running. -/
theorem start_after_finished_runs_timer :
    observe (run init (sixDraws ++ press BIT5))
      (fun s => (s.number_count, s.digits 0, s.digits 1, decide (running s.TA2CTL)))
      = some (6, 10, 11, false) ∧
    observe (run init (sixDraws ++ press BIT5 ++ press BIT4 ++ press BIT5))
      (fun s => (s.number_count, decide (running s.TA2CTL))) = some (7, true) := by
  decide

/-- C7: in a state with candidate `number = v ≤ 31` and `number_count = c < 7`, a
confirmed Stop stops and clears the draw timer (mode bits zero, `TACLR`
written), appends exactly the one byte `48 + v` to the serial output, stores
`v` at `numbers[c]` leaving the other slots unchanged and sets `number_count`
to `c + 1`; and from the start-up state, once the draw has produced 17, a
confirmed Stop leaves serial output `[65]`, drawn set `[17]` and count 1. -/
theorem TA1CCR0ISR_stop_commits :
    (∀ (s : State) (v c : Nat) (hc : c < 7), s.number = v → v ≤ 31 → s.number_count = c →
      s.P1IN &&& BIT4 = 0 → s.button_pressed = STOP →
      ∃ s', TA1CCR0ISR s = .ok s' ∧ ¬ running s'.TA2CTL ∧ s'.TA2CTL &&& TACLR ≠ 0 ∧
        s'.UCA1TXBUF = s.UCA1TXBUF ++ [48 + v] ∧ s'.numbers ⟨c, hc⟩ = v ∧
        (∀ j : Fin 7, j ≠ ⟨c, hc⟩ → s'.numbers j = s.numbers j) ∧
        s'.number_count = c + 1) ∧
    observe (run init ([.draw [17]] ++ press BIT4))
      (fun s => (s.UCA1TXBUF, drawn s, s.number_count)) = some ([65], [17], 1) := by
  refine ⟨?_, by decide⟩
  intro s v c hc hv hv31 hcount hp hb
  subst hv hcount
  refine ⟨_, TA1CCR0ISR_stop s hp hb hc, ?_, ?_, ?_, ?_, ?_, ?_⟩
  · exact not_running_stopped s.TA2CTL
  · exact bits_or_and_ne_zero _ TACLR TACLR (by decide)
  · have : DIGIT2ASCII s.number % 256 = 48 + s.number := by
      unfold DIGIT2ASCII; omega
    simp [debounceTail, this]
  · simp [debounceTail]
  · intro j hj
    simp [debounceTail, Function.update, hj]
  · show (s.number_count + 1) % 256 = s.number_count + 1
    omega

/-- Witness for C7: Stop confirmed with candidate 17 and two numbers drawn. -/
theorem TA1CCR0ISR_stop_commits_witness :
    ∃ s', TA1CCR0ISR { init with
        button_pressed := STOP, P1IN := 0xEF, number := 17,
        numbers := ![3, 8, 0, 0, 0, 0, 0], number_count := 2, UCA1TXBUF := [51, 56] } = .ok s' ∧
      ¬ running s'.TA2CTL ∧ s'.TA2CTL &&& TACLR ≠ 0 ∧
      s'.UCA1TXBUF = [51, 56] ++ [48 + 17] ∧ s'.numbers ⟨2, by decide⟩ = 17 ∧
      (∀ j : Fin 7, j ≠ ⟨2, by decide⟩ → s'.numbers j = ![3, 8, 0, 0, 0, 0, 0] j) ∧
      s'.number_count = 2 + 1 :=
  TA1CCR0ISR_stop_commits.1 _ 17 2 (by decide) rfl (by decide) rfl (by decide) rfl

/-- C8 (the code at the failing input): after a draw of 17 and a confirmed Stop
the draw timer is not running, the drawn set is `[17]` and the serial output
`[65]`; a second confirmed Stop in that state stores 17 again, raises
`number_count` to 2 and writes a second byte 65. -/
theorem stop_without_draw_commits :
    observe (run init ([.draw [17]] ++ press BIT4))
      (fun s => (decide (running s.TA2CTL), s.number_count, drawn s, s.UCA1TXBUF))
      = some (false, 1, [17], [65]) ∧
    observe (run init ([.draw [17]] ++ press BIT4 ++ press BIT4))
      (fun s => (decide (running s.TA2CTL), s.number_count, drawn s, s.UCA1TXBUF))
      = some (false, 2, [17, 17], [65, 65]) := by
  decide

/-- C9 (the code at the failing input): the Stop line falls, the edge is
served, the line rises again and the debounce timer fires; `TA1CCR0ISR` rejects
the press as bounce and returns with `button_pressed` still `STOP`, not `NONE`
(the three dispatch branches assign `NONE`, the bounce path does not). -/
theorem bounce_keeps_button_pressed :
    observe (run init [.pins 0xEF, .edge, .pins 0xFF, .debounce])
      (fun s => s.button_pressed) = some STOP := by
  decide

/-- C10: in a state with `button_pressed == NONE` and exactly one of the three
button flags set, `P1ISR` sets `button_pressed` to the action of that line
(P1.4 to STOP, P1.5 to START, P1.1 to RESET), clears that line's flag, starts
the debounce timer and disables the edge interrupts of all three lines; the
mapping is injective: equal resulting actions come from the same line. -/
theorem P1ISR_first_edge :
    (∀ s : State, s.button_pressed = NONE → oneFlag s.P1IFG →
      (s.P1IFG &&& BIT4 ≠ 0 →
        (P1ISR s).button_pressed = STOP ∧ (P1ISR s).P1IFG &&& BIT4 = 0) ∧
      (s.P1IFG &&& BIT5 ≠ 0 →
        (P1ISR s).button_pressed = START ∧ (P1ISR s).P1IFG &&& BIT5 = 0) ∧
      (s.P1IFG &&& BIT1 ≠ 0 →
        (P1ISR s).button_pressed = RESET ∧ (P1ISR s).P1IFG &&& BIT1 = 0) ∧
      running (P1ISR s).TA1CTL ∧ (P1ISR s).P1IE &&& (BIT4 ||| BIT5 ||| BIT1) = 0) ∧
    (∀ s1 s2 : State, oneFlag s1.P1IFG → oneFlag s2.P1IFG →
      (P1ISR s1).button_pressed = (P1ISR s2).button_pressed →
      (s1.P1IFG &&& BIT4 ≠ 0 ↔ s2.P1IFG &&& BIT4 ≠ 0) ∧
      (s1.P1IFG &&& BIT5 ≠ 0 ↔ s2.P1IFG &&& BIT5 ≠ 0) ∧
      (s1.P1IFG &&& BIT1 ≠ 0 ↔ s2.P1IFG &&& BIT1 ≠ 0)) := by
  have hIE : ∀ x : Nat, clearBits8 x (BIT4 ||| BIT5 ||| BIT1) &&& (BIT4 ||| BIT5 ||| BIT1) = 0 :=
    fun x => bits_and_and_eq_zero x _ _ (by decide)
  have h4 : ∀ x : Nat, clearBits8 x BIT4 &&& BIT4 = 0 :=
    fun x => bits_and_and_eq_zero x _ _ (by decide)
  have h5 : ∀ x : Nat, clearBits8 x BIT5 &&& BIT5 = 0 :=
    fun x => bits_and_and_eq_zero x _ _ (by decide)
  have h1 : ∀ x : Nat, clearBits8 x BIT1 &&& BIT1 = 0 :=
    fun x => bits_and_and_eq_zero x _ _ (by decide)
  constructor
  · intro s _ hone
    unfold oneFlag at hone
    rcases hone with ⟨a, b, c⟩ | ⟨a, b, c⟩ | ⟨a, b, c⟩
    · simp [P1ISR, a, b, c, h4, hIE, running_or_MC__UP]
    · simp [P1ISR, a, b, c, h5, hIE, running_or_MC__UP]
    · simp [P1ISR, a, b, c, h1, hIE, running_or_MC__UP]
  · intro s1 s2 ho1 ho2
    unfold oneFlag at ho1 ho2
    rcases ho1 with ⟨a, b, c⟩ | ⟨a, b, c⟩ | ⟨a, b, c⟩ <;>
      rcases ho2 with ⟨a2, b2, c2⟩ | ⟨a2, b2, c2⟩ | ⟨a2, b2, c2⟩ <;>
      simp [P1ISR, a, b, c, a2, b2, c2]

/-- Witness for C10: the Start line P1.5 has latched its flag in the start-up
state. -/
theorem P1ISR_first_edge_witness :
    oneFlag BIT5 ∧
    (P1ISR { init with P1IFG := BIT5 }).button_pressed = START ∧
    (P1ISR { init with P1IFG := BIT5 }).P1IFG &&& BIT5 = 0 ∧
    running (P1ISR { init with P1IFG := BIT5 }).TA1CTL ∧
    (P1ISR { init with P1IFG := BIT5 }).P1IE &&& (BIT4 ||| BIT5 ||| BIT1) = 0 :=
  have h := P1ISR_first_edge.1 { init with P1IFG := BIT5 } rfl (by decide)
  ⟨by decide, (h.2.1 (by decide)).1, (h.2.1 (by decide)).2, h.2.2.2.1, h.2.2.2.2⟩

/-! ## Segment outputs -/

theorem bits_set_clear_outside (x m nt nm : Nat) (h1 : m &&& nm = 0) (h2 : nt &&& nm = nm) :
    (x ||| m) &&& nt &&& nm = x &&& nm := by
  apply Nat.eq_of_testBit_eq
  intro i
  have e1 := congrArg (fun n => n.testBit i) h1
  have e2 := congrArg (fun n => n.testBit i) h2
  simp only [Nat.testBit_and, Nat.testBit_or, Nat.zero_testBit] at e1 e2 ⊢
  cases hx : x.testBit i <;> cases hm : m.testBit i <;> cases hnt : nt.testBit i <;>
    cases hnm : nm.testBit i <;> simp_all

theorem bits_set_clear_inside (x m nt : Nat) : (x ||| m) &&& nt &&& m = m &&& nt := by
  apply Nat.eq_of_testBit_eq
  intro i
  simp only [Nat.testBit_and, Nat.testBit_or]
  cases hx : x.testBit i <;> cases hm : m.testBit i <;> cases hnt : nt.testBit i <;> simp

theorem segtab_entries :
    ∀ d, d < 12 →
      segtab2[d]? = some (segtab2.getD d 0) ∧ segtab3[d]? = some (segtab3.getD d 0) ∧
      segtab4[d]? = some (segtab4.getD d 0) ∧ segtab8[d]? = some (segtab8.getD d 0) ∧
      (0xFF ^^^ (segtab2.getD d 0 % 256)) &&& (0xFF ^^^ 0x48) = 0xFF ^^^ 0x48 ∧
      (0xFF ^^^ (segtab3.getD d 0 % 256)) &&& (0xFF ^^^ 0x80) = 0xFF ^^^ 0x80 ∧
      (0xFF ^^^ (segtab4.getD d 0 % 256)) &&& (0xFF ^^^ 0x09) = 0xFF ^^^ 0x09 ∧
      (0xFF ^^^ (segtab8.getD d 0 % 256)) &&& (0xFF ^^^ 0x06) = 0xFF ^^^ 0x06 := by
  decide

theorem WriteLed_ok (s : State) (d : Nat) (hd : d < 12) :
    WriteLed s d = .ok { s with
      P2OUT := clearBits8 (s.P2OUT ||| 0x48) (segtab2.getD d 0)
      P3OUT := clearBits8 (s.P3OUT ||| 0x80) (segtab3.getD d 0)
      P4OUT := clearBits8 (s.P4OUT ||| 0x09) (segtab4.getD d 0)
      P8OUT := clearBits8 (s.P8OUT ||| 0x06) (segtab8.getD d 0) } := by
  obtain ⟨h2, h3, h4, h8, _⟩ := segtab_entries d hd
  unfold WriteLed
  rw [h2, h3, h4, h8]

theorem WriteLed_lt (s s' : State) (d : Nat) (h : WriteLed s d = .ok s') : d < 12 := by
  by_contra hd
  have h2 : segtab2[d]? = none := by
    apply List.getElem?_eq_none
    simp only [segtab2, List.length_cons, List.length_nil]
    omega
  unfold WriteLed at h
  rw [h2] at h
  simp at h

/-! ## The refresh handler, case by case -/

theorem WriteLed_error (s : State) (d : Nat) (hd : ¬ d < 12) :
    WriteLed s d = .error Fault.outOfBounds := by
  have h2 : segtab2[d]? = none := by
    apply List.getElem?_eq_none
    simp only [segtab2, List.length_cons, List.length_nil]
    omega
  unfold WriteLed
  rw [h2]

theorem TA0CCR0ISR_steps_zero (s : State) (h0 : s.current_digit = 0) (hd : s.digits 0 < 12) :
    ∃ s2, WriteLed { s with P7OUT := s.P7OUT ||| BIT0 } (s.digits 0) = .ok s2 ∧
      TA0CCR0ISR_steps s = .ok [{ s with P7OUT := s.P7OUT ||| BIT0 }, s2,
        { s2 with P6OUT := clearBits8 s2.P6OUT BIT4 },
        { s2 with P6OUT := clearBits8 s2.P6OUT BIT4, current_digit := 1 }] ∧
      TA0CCR0ISR s = .ok { s2 with P6OUT := clearBits8 s2.P6OUT BIT4, current_digit := 1 } := by
  refine ⟨_, WriteLed_ok _ _ hd, ?_, ?_⟩
  · unfold TA0CCR0ISR_steps
    simp [h0, readDigit, WriteLed_ok _ _ hd, bind, Except.bind, pure, Except.pure]
  · unfold TA0CCR0ISR
    simp [h0, readDigit, WriteLed_ok _ _ hd, bind, Except.bind, pure, Except.pure]

theorem TA0CCR0ISR_steps_one (s : State) (h1 : s.current_digit = 1) (hd : s.digits 1 < 12) :
    ∃ s2, WriteLed { s with P6OUT := s.P6OUT ||| BIT4 } (s.digits 1) = .ok s2 ∧
      TA0CCR0ISR_steps s = .ok [{ s with P6OUT := s.P6OUT ||| BIT4 }, s2,
        { s2 with P7OUT := clearBits8 s2.P7OUT BIT0 },
        { s2 with P7OUT := clearBits8 s2.P7OUT BIT0, current_digit := 0 }] ∧
      TA0CCR0ISR s = .ok { s2 with P7OUT := clearBits8 s2.P7OUT BIT0, current_digit := 0 } := by
  refine ⟨_, WriteLed_ok _ _ hd, ?_, ?_⟩
  · unfold TA0CCR0ISR_steps
    simp [h1, readDigit, WriteLed_ok _ _ hd, bind, Except.bind, pure, Except.pure]
  · unfold TA0CCR0ISR
    simp [h1, readDigit, WriteLed_ok _ _ hd, bind, Except.bind, pure, Except.pure]

theorem TA1CCR0ISR_eq_dispatched (s : State) : TA1CCR0ISR s =
    if s.P1IN &&& lineOf s.button_pressed = 0 then dispatched s else .ok (debounceTail s) := by
  unfold TA1CCR0ISR dispatched
  cases hb : s.button_pressed <;> simp [lineOf]

theorem WriteLed_fields (s s' : State) (d : Nat) (h : WriteLed s d = .ok s') :
    s'.digits = s.digits ∧ s'.number_count = s.number_count ∧
    s'.current_digit = s.current_digit ∧ s'.P1IE = s.P1IE ∧ s'.TA1CTL = s.TA1CTL ∧
    s'.P6OUT = s.P6OUT ∧ s'.P7OUT = s.P7OUT := by
  have hd := WriteLed_lt s s' d h
  rw [WriteLed_ok s d hd] at h
  simp only [Except.ok.injEq] at h
  subst h
  exact ⟨rfl, rfl, rfl, rfl, rfl, rfl, rfl⟩

/-! ## Facts preserved by every event -/

theorem bits_or_and_self (x b : Nat) : (x ||| b) &&& b = b := by
  apply Nat.eq_of_testBit_eq
  intro i
  simp only [Nat.testBit_and, Nat.testBit_or]
  cases x.testBit i <;> cases b.testBit i <;> rfl

theorem maskedIffRunning_P1ISR (s : State) (h : maskedIffRunning s) :
    maskedIffRunning (P1ISR s) := by
  have hIE : ∀ x : Nat, clearBits8 x (BIT4 ||| BIT5 ||| BIT1) &&& BUTTONS = 0 :=
    fun x => bits_and_and_eq_zero x _ _ (by decide)
  unfold P1ISR
  split_ifs
  · exact Or.inl ⟨hIE _, running_or_MC__UP _⟩
  · exact Or.inl ⟨hIE _, running_or_MC__UP _⟩
  · exact Or.inl ⟨hIE _, running_or_MC__UP _⟩
  · exact h

theorem maskedIffRunning_debounceTail (s : State) : maskedIffRunning (debounceTail s) :=
  Or.inr ⟨bits_or_and_self _ _, not_running_stopped _⟩

theorem TA1CCR0ISR_fields (s s' : State) (h : TA1CCR0ISR s = .ok s') :
    maskedIffRunning s' ∧ s'.current_digit = s.current_digit ∧
    (s.number_count ≤ 7 → s'.number_count ≤ 7) ∧
    ((∀ i, s.digits i ≤ 11) → ∀ i, s'.digits i ≤ 11) := by
  rw [TA1CCR0ISR_eq_dispatched] at h
  split at h
  · unfold dispatched at h
    split at h
    · split at h
      · rename_i hc
        simp only [Except.ok.injEq] at h
        subst h
        refine ⟨maskedIffRunning_debounceTail _, rfl, fun _ => ?_, fun hd => hd⟩
        show (s.number_count + 1) % 256 ≤ 7
        omega
      · simp at h
    · split at h
      · simp only [Except.ok.injEq] at h
        subst h
        refine ⟨maskedIffRunning_debounceTail _, rfl, fun hc => hc, fun _ i => ?_⟩
        fin_cases i <;> simp [debounceTail, Function.update]
      · simp only [Except.ok.injEq] at h
        subst h
        exact ⟨maskedIffRunning_debounceTail _, rfl, fun hc => hc, fun hd => hd⟩
    · simp only [Except.ok.injEq] at h
      subst h
      exact ⟨maskedIffRunning_debounceTail _, rfl, fun _ => Nat.zero_le _, fun hd => hd⟩
    · simp only [Except.ok.injEq] at h
      subst h
      exact ⟨maskedIffRunning_debounceTail _, rfl, fun hc => hc, fun hd => hd⟩
  · simp only [Except.ok.injEq] at h
    subst h
    exact ⟨maskedIffRunning_debounceTail _, rfl, fun hc => hc, fun hd => hd⟩

theorem drawLoop_frame (samples : List Nat) :
    ∀ (s s' : State), drawLoop s samples = .ok s' → s' = { s with number := s'.number } := by
  induction samples with
  | nil => intro s s' h; simp [drawLoop] at h
  | cons x rest ih =>
    intro s s' h
    simp only [drawLoop] at h
    split at h
    · simp at h
    · have h1 := ih _ _ h
      rw [h1]
    · simp only [Except.ok.injEq] at h
      subst h
      rfl

theorem displayLoop_le (n : Nat) (d : Fin 2 → Nat) (i : Fin 2) : displayLoop 2 0 n d i ≤ 9 := by
  fin_cases i <;> simp [displayLoop, Function.update] <;> omega

theorem TA2CCR0ISR_fields (s s' : State) (samples : List Nat)
    (h : TA2CCR0ISR s samples = .ok s') :
    s' = { s with number := s'.number, digits := s'.digits } ∧ ∀ i, s'.digits i ≤ 9 := by
  unfold TA2CCR0ISR at h
  split at h
  · simp at h
  · rename_i s1 heq
    simp only [Except.ok.injEq] at h
    subst h
    have h1 := drawLoop_frame samples s s1 heq
    refine ⟨?_, fun i => displayLoop_le _ _ i⟩
    rw [h1]
    rfl

theorem TA0CCR0ISR_fields (s s' : State) (h : TA0CCR0ISR s = .ok s') :
    s'.digits = s.digits ∧ s'.number_count = s.number_count ∧ s'.current_digit < 2 ∧
    s'.P1IE = s.P1IE ∧ s'.TA1CTL = s.TA1CTL := by
  by_cases h1 : s.current_digit = 1
  · by_cases hd : s.digits 1 < 12
    · obtain ⟨s2, hw, _, he⟩ := TA0CCR0ISR_steps_one s h1 hd
      obtain ⟨f1, f2, _, f4, f5, _, _⟩ := WriteLed_fields _ _ _ hw
      rw [he] at h
      simp only [Except.ok.injEq] at h
      subst h
      exact ⟨f1, f2, Nat.zero_lt_two, f4, f5⟩
    · unfold TA0CCR0ISR at h
      simp [h1, readDigit, WriteLed_error _ _ hd, bind, Except.bind, pure, Except.pure] at h
  · by_cases h0 : s.current_digit = 0
    · by_cases hd : s.digits 0 < 12
      · obtain ⟨s2, hw, _, he⟩ := TA0CCR0ISR_steps_zero s h0 hd
        obtain ⟨f1, f2, _, f4, f5, _, _⟩ := WriteLed_fields _ _ _ hw
        rw [he] at h
        simp only [Except.ok.injEq] at h
        subst h
        exact ⟨f1, f2, Nat.one_lt_two, f4, f5⟩
      · unfold TA0CCR0ISR at h
        simp [h0, readDigit, WriteLed_error _ _ hd, bind, Except.bind, pure, Except.pure] at h
    · unfold TA0CCR0ISR at h
      simp only [h1, h0, if_false, bind, Except.bind, pure, Except.pure, Except.ok.injEq] at h
      subst h
      exact ⟨rfl, rfl, Nat.lt_succ_of_le Nat.and_le_right, rfl, rfl⟩

theorem Inv_init : Inv init := by
  refine ⟨by decide, fun i => by fin_cases i <;> decide, by decide, Or.inr ⟨by decide, by decide⟩⟩

theorem Inv_step (s s' : State) (e : Event) (hI : Inv s) (h : step s e = .ok s') : Inv s' := by
  obtain ⟨hc, hd, hcd, hm⟩ := hI
  cases e with
  | refresh =>
    obtain ⟨f1, f2, f3, f4, f5⟩ := TA0CCR0ISR_fields s s' h
    refine ⟨by omega, by rw [f1]; exact hd, f3, ?_⟩
    unfold maskedIffRunning
    rw [f4, f5]
    exact hm
  | pins v =>
    simp only [step, Except.ok.injEq] at h
    subst h
    exact ⟨hc, hd, hcd, hm⟩
  | edge =>
    simp only [step] at h
    split at h
    · simp only [Except.ok.injEq] at h
      subst h
      refine ⟨?_, ?_, ?_, maskedIffRunning_P1ISR s hm⟩
      · unfold P1ISR; split_ifs <;> exact hc
      · unfold P1ISR; split_ifs <;> exact hd
      · unfold P1ISR; split_ifs <;> exact hcd
    · simp at h
  | debounce =>
    simp only [step] at h
    split at h
    · obtain ⟨g1, g2, g3, g4⟩ := TA1CCR0ISR_fields s s' h
      exact ⟨g3 hc, g4 hd, by omega, g1⟩
    · simp at h
  | draw samples =>
    simp only [step] at h
    split at h
    · obtain ⟨g1, g2⟩ := TA2CCR0ISR_fields s s' samples h
      refine ⟨?_, fun i => Nat.le_trans (g2 i) (by decide), ?_, ?_⟩
      · rw [g1]; exact hc
      · rw [g1]; exact hcd
      · rw [g1]; exact hm
    · simp at h

theorem Inv_run (tr : List Event) : ∀ (s s' : State), Inv s → run s tr = .ok s' → Inv s' := by
  induction tr with
  | nil =>
    intro s s' hI h
    simp only [run, Except.ok.injEq] at h
    subst h
    exact hI
  | cons e es ih =>
    intro s s' hI h
    simp only [run] at h
    split at h
    · simp at h
    · rename_i s1 heq
      exact ih s1 s' (Inv_step s s1 e hI heq) h

/-! ## Termination of the rejection loop -/

theorem scanLoop_total (numbers : Fin 7 → Nat) (number : Nat) :
    ∀ (k i : Nat) (rep : Bool), i + k ≤ 7 → ∃ r, scanLoop numbers number k i rep = .ok r := by
  intro k
  induction k with
  | zero => intro i rep _; exact ⟨rep, rfl⟩
  | succ k ih =>
    intro i rep h
    have hi : i < 7 := by omega
    unfold scanLoop
    simp only [hi, dite_true]
    exact ih _ _ (by omega)

theorem scanLoop_excluded (s : State) (hc : s.number_count ≤ 7) (v : Nat) :
    scanLoop s.numbers v s.number_count 0 false = .ok (decide (excluded s v)) := by
  obtain ⟨r, hr⟩ := scanLoop_total s.numbers v s.number_count 0 false (by omega)
  have h := scanLoop_ok s.numbers v _ _ _ _ hr
  rw [hr]
  congr 1
  have : r = true ↔ excluded s v := by
    rw [h]
    unfold excluded
    constructor
    · rintro (h0 | ⟨j, hj, _, h2, h3⟩)
      · simp at h0
      · exact ⟨⟨j, hj⟩, by simpa using h2, h3⟩
    · rintro ⟨i, h1, h2⟩
      exact Or.inr ⟨i.val, i.isLt, Nat.zero_le _, by simpa using h1, h2⟩
  cases r
  · simp only [Bool.false_eq_true, false_iff] at this
    simp [this]
  · simp only [true_iff] at this
    simp [this]

theorem drawLoop_first (x : Nat) (post : List Nat) :
    ∀ (pre : List Nat) (s : State), s.number_count ≤ 7 →
      (∀ y ∈ pre, excluded s (y &&& 0x001f)) → ¬ excluded s (x &&& 0x001f) →
      drawLoop s (pre ++ x :: post) = .ok { s with number := x &&& 0x001f } := by
  intro pre
  induction pre with
  | nil =>
    intro s hc _ hx
    have hx' : ¬ excluded { s with number := x &&& 0x001f } (x &&& 0x001f) := hx
    simp only [List.nil_append, drawLoop]
    rw [scanLoop_excluded { s with number := x &&& 0x001f } hc (x &&& 0x001f)]
    simp [hx']
  | cons y pre ih =>
    intro s hc hpre hx
    have hy : excluded { s with number := y &&& 0x001f } (y &&& 0x001f) :=
      hpre y (List.mem_cons_self _ _)
    simp only [List.cons_append, drawLoop]
    rw [scanLoop_excluded { s with number := y &&& 0x001f } hc (y &&& 0x001f)]
    simp only [hy, decide_True]
    exact ih { s with number := y &&& 0x001f } hc
      (fun z hz => hpre z (List.mem_cons_of_mem _ hz)) hx

theorem exists_not_excluded (s : State) : ∃ v, v ≤ 31 ∧ ¬ excluded s v := by
  by_contra hall
  push_neg at hall
  have hsub : Finset.range 32 ⊆ Finset.image s.numbers Finset.univ := by
    intro v hv
    have hlt := Finset.mem_range.mp hv
    obtain ⟨i, _, hi⟩ := hall v (by omega)
    exact Finset.mem_image.mpr ⟨i, Finset.mem_univ _, hi⟩
  have h1 := Finset.card_le_card hsub
  have h2 : (Finset.image s.numbers Finset.univ).card ≤ (Finset.univ : Finset (Fin 7)).card :=
    Finset.card_image_le
  rw [Finset.card_range] at h1
  rw [Finset.card_univ, Fintype.card_fin] at h2
  omega

/-! ## Display multiplexing -/

theorem refresh_tick_zero (s : State) (h0 : s.current_digit = 0) (hd : ∀ i, s.digits i ≤ 11) :
    ∃ tr s', TA0CCR0ISR_steps s = .ok tr ∧ tr.getLast? = some s' ∧ TA0CCR0ISR s = .ok s' ∧
      (∀ t ∈ tr, ¬ sel1Active t) ∧ s'.current_digit = 1 ∧ sel2Active s' ∧
      s'.digits = s.digits := by
  obtain ⟨s2, hw, hs, he⟩ := TA0CCR0ISR_steps_zero s h0 (by have := hd 0; omega)
  obtain ⟨f1, _, _, _, _, f6, f7⟩ := WriteLed_fields _ _ _ hw
  have hoff : ¬ (s.P7OUT ||| BIT0) &&& BIT0 = 0 := bits_or_and_ne_zero _ BIT0 BIT0 (by decide)
  refine ⟨_, _, hs, rfl, he, ?_, rfl, ?_, f1⟩
  · intro t ht
    simp only [List.mem_cons, List.mem_singleton, List.not_mem_nil, or_false] at ht
    rcases ht with rfl | rfl | rfl | rfl
    · exact hoff
    · unfold sel1Active; rw [f7]; exact hoff
    · unfold sel1Active; show ¬ s2.P7OUT &&& BIT0 = 0; rw [f7]; exact hoff
    · unfold sel1Active; show ¬ s2.P7OUT &&& BIT0 = 0; rw [f7]; exact hoff
  · exact bits_and_and_eq_zero _ _ _ (by decide)

theorem refresh_tick_one (s : State) (h1 : s.current_digit = 1) (hd : ∀ i, s.digits i ≤ 11) :
    ∃ tr s', TA0CCR0ISR_steps s = .ok tr ∧ tr.getLast? = some s' ∧ TA0CCR0ISR s = .ok s' ∧
      (∀ t ∈ tr, ¬ sel2Active t) ∧ s'.current_digit = 0 ∧ sel1Active s' ∧
      s'.digits = s.digits := by
  obtain ⟨s2, hw, hs, he⟩ := TA0CCR0ISR_steps_one s h1 (by have := hd 1; omega)
  obtain ⟨f1, _, _, _, _, f6, f7⟩ := WriteLed_fields _ _ _ hw
  have hoff : ¬ (s.P6OUT ||| BIT4) &&& BIT4 = 0 := bits_or_and_ne_zero _ BIT4 BIT4 (by decide)
  refine ⟨_, _, hs, rfl, he, ?_, rfl, ?_, f1⟩
  · intro t ht
    simp only [List.mem_cons, List.mem_singleton, List.not_mem_nil, or_false] at ht
    rcases ht with rfl | rfl | rfl | rfl
    · exact hoff
    · unfold sel2Active; rw [f6]; exact hoff
    · unfold sel2Active; show ¬ s2.P6OUT &&& BIT4 = 0; rw [f6]; exact hoff
    · unfold sel2Active; show ¬ s2.P6OUT &&& BIT4 = 0; rw [f6]; exact hoff
  · exact bits_and_and_eq_zero _ _ _ (by decide)

theorem refresh_ticks (n : Nat) :
    ∀ s : State, (∀ i, s.digits i ≤ 11) →
      (s.current_digit = 0 ∧ ¬ sel2Active s) ∨ (s.current_digit = 1 ∧ ¬ sel1Active s) →
      ∃ s', run s (List.replicate n .refresh) = .ok s' ∧ (∀ i, s'.digits i ≤ 11) ∧
        ((s'.current_digit = 0 ∧ ¬ sel2Active s') ∨ (s'.current_digit = 1 ∧ ¬ sel1Active s')) ∧
        s'.current_digit = (s.current_digit + n) % 2 ∧
        (0 < n → (s'.current_digit = 1 ∧ sel2Active s') ∨
                  (s'.current_digit = 0 ∧ sel1Active s')) := by
  induction n with
  | zero =>
    intro s hd hJ
    refine ⟨s, rfl, hd, hJ, ?_, fun h => absurd h (Nat.lt_irrefl 0)⟩
    rcases hJ with ⟨h, _⟩ | ⟨h, _⟩ <;> simp [h]
  | succ n ih =>
    intro s hd hJ
    have hstep : ∃ s1, TA0CCR0ISR s = .ok s1 ∧ (∀ i, s1.digits i ≤ 11) ∧
        ((s1.current_digit = 1 ∧ sel2Active s1 ∧ ¬ sel1Active s1) ∨
         (s1.current_digit = 0 ∧ sel1Active s1 ∧ ¬ sel2Active s1)) ∧
        s1.current_digit = (s.current_digit + 1) % 2 := by
      rcases hJ with ⟨h0, _⟩ | ⟨h1, _⟩
      · obtain ⟨tr, s1, _, hl, he, hall, hcd, hact, hdig⟩ := refresh_tick_zero s h0 hd
        refine ⟨s1, he, by rw [hdig]; exact hd,
          Or.inl ⟨hcd, hact, hall s1 (List.mem_of_mem_getLast? hl)⟩, by rw [hcd, h0]⟩
      · obtain ⟨tr, s1, _, hl, he, hall, hcd, hact, hdig⟩ := refresh_tick_one s h1 hd
        refine ⟨s1, he, by rw [hdig]; exact hd,
          Or.inr ⟨hcd, hact, hall s1 (List.mem_of_mem_getLast? hl)⟩, by rw [hcd, h1]⟩
    obtain ⟨s1, he, hd1, hK, hcd1⟩ := hstep
    have hJ1 : (s1.current_digit = 0 ∧ ¬ sel2Active s1) ∨
        (s1.current_digit = 1 ∧ ¬ sel1Active s1) := by
      rcases hK with ⟨a, _, c⟩ | ⟨a, _, c⟩
      · exact Or.inr ⟨a, c⟩
      · exact Or.inl ⟨a, c⟩
    obtain ⟨s', hr, hd', hJ', hcd', hact'⟩ := ih s1 hd1 hJ1
    refine ⟨s', ?_, hd', hJ', ?_, fun _ => ?_⟩
    · show run s (.refresh :: List.replicate n .refresh) = .ok s'
      simp only [run, step, he]
      exact hr
    · rw [hcd', hcd1]
      omega
    · by_cases hn : 0 < n
      · exact hact' hn
      · have hn0 : n = 0 := by omega
        subst hn0
        simp only [List.replicate, run, Except.ok.injEq] at hr
        subst hr
        rcases hK with ⟨a, b, _⟩ | ⟨a, b, _⟩
        · exact Or.inl ⟨a, b⟩
        · exact Or.inr ⟨a, b⟩

/-! ## The drawn numbers stay 5-bit values -/

theorem TA2CCR0ISR_fresh (s s' : State) (samples : List Nat)
    (h : TA2CCR0ISR s samples = .ok s') :
    s'.number ≤ 31 ∧
    (∀ i, ∀ hi : i < 7, i < s'.number_count → s'.numbers ⟨i, hi⟩ ≠ s'.number) ∧
    s'.numbers = s.numbers ∧ s'.number_count = s.number_count := by
  unfold TA2CCR0ISR at h
  split at h
  · simp at h
  · rename_i s1 heq
    simp only [Except.ok.injEq] at h
    subst h
    obtain ⟨h1, h2, h3, h4⟩ := drawLoop_ok samples s s1 heq
    refine ⟨Nat.le_of_lt_succ h1, ?_, h3, h4⟩
    intro i hi hlt heq2
    have := (scanLoop_ok s1.numbers s1.number _ _ _ _ h2).mpr
      (Or.inr ⟨i, hi, Nat.zero_le _, by simpa [display] using hlt, by simpa [display] using heq2⟩)
    simp at this

theorem WriteLed_numbers (s s' : State) (d : Nat) (h : WriteLed s d = .ok s') :
    s'.numbers = s.numbers ∧ s'.number = s.number := by
  have hd := WriteLed_lt s s' d h
  rw [WriteLed_ok s d hd] at h
  simp only [Except.ok.injEq] at h
  subst h
  exact ⟨rfl, rfl⟩

theorem TA0CCR0ISR_numbers (s s' : State) (h : TA0CCR0ISR s = .ok s') :
    s'.numbers = s.numbers ∧ s'.number = s.number := by
  by_cases h1 : s.current_digit = 1
  · by_cases hd : s.digits 1 < 12
    · obtain ⟨s2, hw, _, he⟩ := TA0CCR0ISR_steps_one s h1 hd
      obtain ⟨f1, f2⟩ := WriteLed_numbers _ _ _ hw
      rw [he] at h
      simp only [Except.ok.injEq] at h
      subst h
      exact ⟨f1, f2⟩
    · unfold TA0CCR0ISR at h
      simp [h1, readDigit, WriteLed_error _ _ hd, bind, Except.bind, pure, Except.pure] at h
  · by_cases h0 : s.current_digit = 0
    · by_cases hd : s.digits 0 < 12
      · obtain ⟨s2, hw, _, he⟩ := TA0CCR0ISR_steps_zero s h0 hd
        obtain ⟨f1, f2⟩ := WriteLed_numbers _ _ _ hw
        rw [he] at h
        simp only [Except.ok.injEq] at h
        subst h
        exact ⟨f1, f2⟩
      · unfold TA0CCR0ISR at h
        simp [h0, readDigit, WriteLed_error _ _ hd, bind, Except.bind, pure, Except.pure] at h
    · unfold TA0CCR0ISR at h
      simp only [h1, h0, if_false, bind, Except.bind, pure, Except.pure, Except.ok.injEq] at h
      subst h
      exact ⟨rfl, rfl⟩

theorem TA1CCR0ISR_inRange (s s' : State) (hR : inRange s) (h : TA1CCR0ISR s = .ok s') :
    inRange s' := by
  obtain ⟨hn, hnum⟩ := hR
  rw [TA1CCR0ISR_eq_dispatched] at h
  split at h
  · unfold dispatched at h
    split at h
    · split at h
      · rename_i hc
        simp only [Except.ok.injEq] at h
        subst h
        refine ⟨fun i => ?_, hnum⟩
        show Function.update s.numbers ⟨s.number_count, hc⟩ s.number i ≤ 31
        by_cases hi : i = ⟨s.number_count, hc⟩
        · rw [hi, Function.update_same]
          exact hnum
        · rw [Function.update_noteq hi]
          exact hn i
      · simp at h
    · split at h <;>
      · simp only [Except.ok.injEq] at h
        subst h
        exact ⟨hn, hnum⟩
    · simp only [Except.ok.injEq] at h
      subst h
      refine ⟨fun i => ?_, hnum⟩
      show clearLoop NUMBERS_LENGTH 0 s.numbers i ≤ 31
      rw [clearLoop_all]
      exact Nat.zero_le _
    · simp only [Except.ok.injEq] at h
      subst h
      exact ⟨hn, hnum⟩
  · simp only [Except.ok.injEq] at h
    subst h
    exact ⟨hn, hnum⟩

theorem inRange_init : inRange init :=
  ⟨fun _ => Nat.zero_le _, Nat.zero_le _⟩

theorem inRange_step (s s' : State) (e : Event) (hR : inRange s) (h : step s e = .ok s') :
    inRange s' := by
  cases e with
  | refresh =>
    obtain ⟨f1, f2⟩ := TA0CCR0ISR_numbers s s' h
    unfold inRange
    rw [f1, f2]
    exact hR
  | pins v =>
    simp only [step, Except.ok.injEq] at h
    subst h
    exact hR
  | edge =>
    simp only [step] at h
    split at h
    · simp only [Except.ok.injEq] at h
      subst h
      unfold P1ISR
      split_ifs <;> exact hR
    · simp at h
  | debounce =>
    simp only [step] at h
    split at h
    · exact TA1CCR0ISR_inRange s s' hR h
    · simp at h
  | draw samples =>
    simp only [step] at h
    split at h
    · obtain ⟨g1, _, g3, _⟩ := TA2CCR0ISR_fresh s s' samples h
      refine ⟨?_, g1⟩
      rw [g3]
      exact hR.1
    · simp at h

theorem inRange_run (tr : List Event) :
    ∀ (s s' : State), inRange s → run s tr = .ok s' → inRange s' := by
  induction tr with
  | nil =>
    intro s s' hR h
    simp only [run, Except.ok.injEq] at h
    subst h
    exact hR
  | cons e es ih =>
    intro s s' hR h
    simp only [run] at h
    split at h
    · simp at h
    · rename_i s1 heq
      exact ih s1 s' (inRange_step s s1 e hR heq) h

theorem draw_then_stop_of_range (s s1 t : State) (samples : List Nat) (c : Nat)
    (hc : s.number_count = c) (hc7 : c < 7)
    (hdist : ∀ i j : Fin 7, i.val < c → j.val < c → s.numbers i = s.numbers j → i = j)
    (hrange : ∀ i : Fin 7, i.val < c → s.numbers i ≤ 31)
    (hdraw : TA2CCR0ISR s samples = .ok s1)
    (hn : t.numbers = s1.numbers) (hcount : t.number_count = s1.number_count)
    (hnum : t.number = s1.number)
    (hb : t.button_pressed = STOP) (hp : t.P1IN &&& BIT4 = 0) :
    ∃ s2, TA1CCR0ISR t = .ok s2 ∧ s2.number_count = c + 1 ∧
      (∀ i j : Fin 7, i.val < c + 1 → j.val < c + 1 → s2.numbers i = s2.numbers j → i = j) ∧
      (∀ i : Fin 7, i.val < c + 1 → s2.numbers i ≤ 31) := by
  obtain ⟨h31, hfresh, hnums, hcnt⟩ := TA2CCR0ISR_fresh s s1 samples hdraw
  have htc : t.number_count = c := by rw [hcount, hcnt, hc]
  have hlt : t.number_count < 7 := by omega
  have hval : ∀ i : Fin 7, i.val < c → t.numbers i = s.numbers i := by
    intro i _
    rw [hn, hnums]
  have hne : ∀ i : Fin 7, i.val < c → t.numbers i ≠ t.number := by
    intro i hi
    rw [hn, hnum]
    exact hfresh i.val i.isLt (by omega)
  have hupd : ∀ i : Fin 7, i.val < c + 1 →
      (i.val = c ∧ Function.update t.numbers ⟨t.number_count, hlt⟩ t.number i = t.number) ∨
      (i.val < c ∧ Function.update t.numbers ⟨t.number_count, hlt⟩ t.number i = t.numbers i) := by
    intro i hi
    by_cases he : i.val = c
    · left
      refine ⟨he, ?_⟩
      have : i = ⟨t.number_count, hlt⟩ := Fin.ext (by simp [he, htc])
      rw [this, Function.update_same]
    · right
      refine ⟨by omega, ?_⟩
      have : i ≠ ⟨t.number_count, hlt⟩ := fun h => he (by rw [h]; exact htc)
      rw [Function.update_noteq this]
  refine ⟨_, TA1CCR0ISR_stop t hp hb hlt, ?_, ?_, ?_⟩
  · show (t.number_count + 1) % 256 = c + 1
    omega
  · intro i j hi hj heq
    change Function.update t.numbers ⟨t.number_count, hlt⟩ t.number i =
      Function.update t.numbers ⟨t.number_count, hlt⟩ t.number j at heq
    rcases hupd i hi with ⟨hic, ei⟩ | ⟨hic, ei⟩ <;> rcases hupd j hj with ⟨hjc, ej⟩ | ⟨hjc, ej⟩
    · exact Fin.ext (by omega)
    · rw [ei, ej] at heq
      exact absurd heq.symm (hne j hjc)
    · rw [ei, ej] at heq
      exact absurd heq (hne i hic)
    · rw [ei, ej, hval i hic, hval j hjc] at heq
      exact hdist i j hic hjc heq
  · intro i hi
    change Function.update t.numbers ⟨t.number_count, hlt⟩ t.number i ≤ 31
    rcases hupd i hi with ⟨_, ei⟩ | ⟨hic, ei⟩
    · rw [ei, hnum]
      exact h31
    · rw [ei, hval i hic]
      exact hrange i hic

/-! ## Properties of the handlers, continued -/

/-- C12: `TA1CCR0ISR` decides from the line of the pending action only. It
applies the one branch of `button_pressed` when that line reads low and only
the common tail otherwise, so at most one action is dispatched; for a pending
action the returned `button_pressed` is `NONE` exactly when the line read low;
and changing `P1IN` in any bits other than that line changes nothing in the
outcome (same fault, or the same state and serial output, up to the input
register `P1IN` itself). -/
theorem TA1CCR0ISR_own_line_only :
    (∀ s : State, TA1CCR0ISR s =
      if s.P1IN &&& lineOf s.button_pressed = 0 then dispatched s else .ok (debounceTail s)) ∧
    (∀ s s' : State, s.button_pressed ≠ NONE → TA1CCR0ISR s = .ok s' →
      (s'.button_pressed = NONE ↔ s.P1IN &&& lineOf s.button_pressed = 0)) ∧
    (∀ (s : State) (p : Nat),
      p &&& lineOf s.button_pressed = s.P1IN &&& lineOf s.button_pressed →
      TA1CCR0ISR { s with P1IN := p } =
        (TA1CCR0ISR s).map (fun t => { t with P1IN := p })) := by
  have key : ∀ s : State, TA1CCR0ISR s =
      if s.P1IN &&& lineOf s.button_pressed = 0 then dispatched s else .ok (debounceTail s) := by
    intro s
    unfold TA1CCR0ISR dispatched
    cases hb : s.button_pressed <;> simp [lineOf]
  refine ⟨key, ?_, ?_⟩
  · intro s s' hb h
    rw [key] at h
    by_cases hl : s.P1IN &&& lineOf s.button_pressed = 0
    · simp only [hl, if_true] at h
      unfold dispatched at h
      simp only [hl, iff_true]
      split at h
      · split at h
        · simp only [Except.ok.injEq] at h
          subst h; rfl
        · simp at h
      · split at h <;>
        · simp only [Except.ok.injEq] at h
          subst h; rfl
      · simp only [Except.ok.injEq] at h
        subst h; rfl
      · rename_i hN
        exact absurd hN hb
    · simp only [hl, if_false, Except.ok.injEq] at h
      subst h
      simp only [hl, iff_false]
      exact hb
  · intro s p hp
    rw [key, key]
    simp only [hp]
    by_cases hl : s.P1IN &&& lineOf s.button_pressed = 0
    · simp only [hl, if_true]
      unfold dispatched
      cases hb : s.button_pressed
      · simp [Except.map, debounceTail, hb]
      · by_cases h6 : s.number_count = 6 <;> simp [Except.map, debounceTail, h6, hb]
      · by_cases h7 : s.number_count < 7 <;> simp [Except.map, debounceTail, h7, hb]
      · simp [Except.map, debounceTail, hb]
    · simp [hl, Except.map, debounceTail]

/-- Witness for C12: Stop is pending with candidate 17 and line P1.4 low; the
two other button lines are changed from high to low. -/
theorem TA1CCR0ISR_own_line_only_witness :
    TA1CCR0ISR { init with button_pressed := STOP, number := 17, P1IN := 0xCD } =
      (TA1CCR0ISR { init with button_pressed := STOP, number := 17, P1IN := 0xEF }).map
        (fun t => { t with P1IN := 0xCD }) :=
  TA1CCR0ISR_own_line_only.2.2 { init with button_pressed := STOP, number := 17, P1IN := 0xEF }
    0xCD (by decide)

/-- C13: in every state reached from the start-up state the drawn numbers
`numbers[0..number_count)` leave some value of [0,31] free (and the count is at
most 7, so the scan stays inside the array); hence on every list of entropy
samples that contains a sample whose low 5 bits are not drawn, `TA2CCR0ISR`
returns and its candidate is the first such sample. -/
theorem TA2CCR0ISR_terminates (tr : List Event) (s : State) (h : run init tr = .ok s) :
    s.number_count ≤ 7 ∧ (∃ v, v ≤ 31 ∧ ¬ excluded s v) ∧
    ∀ (pre : List Nat) (x : Nat) (post : List Nat),
      (∀ y ∈ pre, excluded s (y &&& 0x001f)) → ¬ excluded s (x &&& 0x001f) →
      ∃ s', TA2CCR0ISR s (pre ++ x :: post) = .ok s' ∧ s'.number = x &&& 0x001f := by
  have hI := Inv_run tr init s Inv_init h
  refine ⟨hI.1, exists_not_excluded s, ?_⟩
  intro pre x post hpre hx
  refine ⟨display { s with number := x &&& 0x001f } (x &&& 0x001f), ?_, rfl⟩
  unfold TA2CCR0ISR
  rw [drawLoop_first x post pre s hI.1 hpre hx]

/-- Witness for C13: after two regular draws (17 and 3) the samples 17, 35
(= 3 mod 32), 8 and 9 make the handler return with candidate 8. -/
theorem TA2CCR0ISR_terminates_witness :
    drawn (stateAfter twoDraws) = [17, 3] ∧
    ∃ s', TA2CCR0ISR (stateAfter twoDraws) ([17, 35] ++ 8 :: [9]) = .ok s' ∧
      s'.number = 8 &&& 0x001f :=
  ⟨by decide, (TA2CCR0ISR_terminates twoDraws (stateAfter twoDraws) rfl).2.2
    [17, 35] 8 [9] (by decide) (by decide)⟩

/-- C14: in every state reached from the start-up state each slot of `digits`
holds a value in [0,9] or one of the codes 10, 11, and `current_digit` is 0 or
1; so the index `digits[current_digit]` that `TA0CCR0ISR` passes to `WriteLed`
is below 12, the length of each of the four segment tables, every lookup has an
entry, and the handler returns. -/
theorem refresh_lookups_in_bounds (tr : List Event) (s : State) (h : run init tr = .ok s) :
    (∀ i, s.digits i ≤ 9 ∨ s.digits i = 10 ∨ s.digits i = 11) ∧
    (∃ d, readDigit s = .ok d ∧ d < 12 ∧
      (∃ t, segtab2[d]? = some t) ∧ (∃ t, segtab3[d]? = some t) ∧
      (∃ t, segtab4[d]? = some t) ∧ (∃ t, segtab8[d]? = some t)) ∧
    segtab2.length = 12 ∧ segtab3.length = 12 ∧ segtab4.length = 12 ∧ segtab8.length = 12 ∧
    ∃ s', TA0CCR0ISR s = .ok s' := by
  obtain ⟨_, hd, hcd, _⟩ := Inv_run tr init s Inv_init h
  refine ⟨fun i => by have := hd i; omega, ?_, rfl, rfl, rfl, rfl, ?_⟩
  · have hlt : s.digits ⟨s.current_digit, hcd⟩ < 12 := by have := hd ⟨s.current_digit, hcd⟩; omega
    obtain ⟨e2, e3, e4, e8, _⟩ := segtab_entries _ hlt
    exact ⟨_, by simp [readDigit, hcd], hlt, ⟨_, e2⟩, ⟨_, e3⟩, ⟨_, e4⟩, ⟨_, e8⟩⟩
  · have h01 : s.current_digit = 0 ∨ s.current_digit = 1 := by omega
    rcases h01 with h0 | h1
    · obtain ⟨s2, _, _, he⟩ := TA0CCR0ISR_steps_zero s h0 (by have := hd 0; omega)
      exact ⟨_, he⟩
    · obtain ⟨s2, _, _, he⟩ := TA0CCR0ISR_steps_one s h1 (by have := hd 1; omega)
      exact ⟨_, he⟩

/-- Witness for C14: the state after six regular draws, the final Start and one
refresh tick, with the end-of-game codes in the digit buffer. -/
theorem refresh_lookups_in_bounds_witness :
    (stateAfter finishedGame).digits 0 = 10 ∧ (stateAfter finishedGame).digits 1 = 11 ∧
    (∃ d, readDigit (stateAfter finishedGame) = .ok d ∧ d < 12) ∧
    ∃ s', TA0CCR0ISR (stateAfter finishedGame) = .ok s' :=
  have h := refresh_lookups_in_bounds finishedGame (stateAfter finishedGame) rfl
  ⟨by decide, by decide, (let ⟨d, h1, h2, _⟩ := h.2.1; ⟨d, h1, h2⟩), h.2.2.2.2.2.2⟩

/-- C15: after any number `n` of refresh ticks from the start-up state (both
selects inactive, `current_digit = 0`) the two digit selects are never both
active, neither in the state after the ticks nor in any state inside the next
tick; after every tick (`n > 0`) exactly one select is active, SEL2 (digit 0)
after an odd number of ticks and SEL1 (digit 1) after an even number. -/
theorem refresh_selects_exclusive (n : Nat) :
    ∃ s, run init (List.replicate n .refresh) = .ok s ∧
      ¬ (sel1Active s ∧ sel2Active s) ∧
      (0 < n → (n % 2 = 1 ∧ sel2Active s ∧ ¬ sel1Active s) ∨
               (n % 2 = 0 ∧ sel1Active s ∧ ¬ sel2Active s)) ∧
      ∃ tr s', TA0CCR0ISR_steps s = .ok tr ∧ tr.getLast? = some s' ∧
        TA0CCR0ISR s = .ok s' ∧ ∀ t ∈ tr, ¬ (sel1Active t ∧ sel2Active t) := by
  have hd0 : ∀ i, init.digits i ≤ 11 := fun i => by fin_cases i <;> decide
  obtain ⟨s, hr, hd, hJ, hcd, hact⟩ := refresh_ticks n init hd0 (Or.inl ⟨rfl, by decide⟩)
  have hcd' : s.current_digit = n % 2 := by
    rw [hcd]
    show (0 + n) % 2 = n % 2
    rw [Nat.zero_add]
  refine ⟨s, hr, ?_, ?_, ?_⟩
  · rcases hJ with ⟨_, h⟩ | ⟨_, h⟩
    · exact fun hb => h hb.2
    · exact fun hb => h hb.1
  · intro hn
    rcases hact hn with ⟨a, b⟩ | ⟨a, b⟩
    · rcases hJ with ⟨c, _⟩ | ⟨_, c⟩
      · omega
      · exact Or.inl ⟨by omega, b, c⟩
    · rcases hJ with ⟨_, c⟩ | ⟨c, _⟩
      · exact Or.inr ⟨by omega, b, c⟩
      · omega
  · rcases hJ with ⟨h0, _⟩ | ⟨h1, _⟩
    · obtain ⟨tr, s', hs, hl, he, hall, _⟩ := refresh_tick_zero s h0 hd
      exact ⟨tr, s', hs, hl, he, fun t ht hb => hall t ht hb.1⟩
    · obtain ⟨tr, s', hs, hl, he, hall, _⟩ := refresh_tick_one s h1 hd
      exact ⟨tr, s', hs, hl, he, fun t ht hb => hall t ht hb.2⟩

/-- Witness for C15: after three ticks SEL2 alone is active. -/
theorem refresh_selects_exclusive_witness :
    ∃ s, run init (List.replicate 3 .refresh) = .ok s ∧
      sel2Active s ∧ ¬ sel1Active s ∧
      ∃ tr s', TA0CCR0ISR_steps s = .ok tr ∧ tr.getLast? = some s' ∧
        TA0CCR0ISR s = .ok s' ∧ ∀ t ∈ tr, ¬ (sel1Active t ∧ sel2Active t) :=
  let ⟨s, h1, _, h3, h4⟩ := refresh_selects_exclusive 3
  ⟨s, h1,
    (h3 (by decide)).elim (fun h => h.2.1) (fun h => absurd h.1 (by decide)),
    (h3 (by decide)).elim (fun h => h.2.2) (fun h => absurd h.1 (by decide)), h4⟩

/-- C16: with `number_count != 6`, a confirmed Start only starts the draw timer
(`TA2CTL |= MC__UP`): `numbers`, `number_count`, `number` and `digits` are
unchanged and no byte is written to the serial sink. -/
theorem TA1CCR0ISR_start_only_starts_timer (s : State) (hc : s.number_count ≠ 6)
    (hp : s.P1IN &&& BIT5 = 0) (hb : s.button_pressed = START) :
    ∃ s', TA1CCR0ISR s = .ok s' ∧ s'.TA2CTL = s.TA2CTL ||| MC__UP ∧ running s'.TA2CTL ∧
      s'.numbers = s.numbers ∧ s'.number_count = s.number_count ∧ s'.number = s.number ∧
      s'.digits = s.digits ∧ s'.UCA1TXBUF = s.UCA1TXBUF :=
  ⟨_, TA1CCR0ISR_start_draw s hp hb hc, rfl, running_or_MC__UP s.TA2CTL, rfl, rfl, rfl, rfl, rfl⟩

/-- Witness for C16: Start confirmed with two numbers drawn and the draw timer
stopped. -/
theorem TA1CCR0ISR_start_only_starts_timer_witness :
    ∃ s', TA1CCR0ISR { init with
        button_pressed := START, P1IN := 0xDF, numbers := ![17, 3, 0, 0, 0, 0, 0],
        number_count := 2, number := 3, TA2CTL := TASSEL__ACLK ||| TACLR,
        UCA1TXBUF := [65, 51] } = .ok s' ∧
      s'.TA2CTL = (TASSEL__ACLK ||| TACLR) ||| MC__UP ∧ running s'.TA2CTL ∧
      s'.numbers = ![17, 3, 0, 0, 0, 0, 0] ∧ s'.number_count = 2 ∧ s'.number = 3 ∧
      s'.digits = init.digits ∧ s'.UCA1TXBUF = [65, 51] :=
  TA1CCR0ISR_start_only_starts_timer _ (by decide) (by decide) rfl

/-- C17: `display(n)` on a 16-bit `n` sets `digits[0] = n mod 10` and
`digits[1] = (n div 10) mod 10`; for `n ≤ 99`, in particular for every accepted
candidate in [0,31], `10 * digits[1] + digits[0] = n`. -/
theorem display_splits_digits :
    (∀ (s : State) (n : Nat), n < 65536 →
      (display s n).digits 0 = n % 10 ∧ (display s n).digits 1 = (n / 10) % 10) ∧
    (∀ (s : State) (n : Nat), n ≤ 99 →
      10 * (display s n).digits 1 + (display s n).digits 0 = n) := by
  have h : ∀ (s : State) (n : Nat), n < 65536 →
      (display s n).digits 0 = n % 10 ∧ (display s n).digits 1 = (n / 10) % 10 := by
    intro s n hn
    simp [display, displayLoop, Function.update, Nat.mod_eq_of_lt hn]
  refine ⟨h, ?_⟩
  intro s n hn
  obtain ⟨h0, h1⟩ := h s n (by omega)
  rw [h0, h1]
  omega

/-- Witness for C17: the candidate 31 is shown as tens 3, units 1. -/
theorem display_splits_digits_witness :
    ((display init 31).digits 0 = 31 % 10 ∧ (display init 31).digits 1 = (31 / 10) % 10) ∧
    10 * (display init 31).digits 1 + (display init 31).digits 0 = 31 :=
  ⟨display_splits_digits.1 init 31 (by decide), display_splits_digits.2 init 31 (by decide)⟩

/-- C18: in every state the program reaches from start-up, with
`number_count = c < 7` and `numbers[0..c)` pairwise distinct, a draw tick that
returns, followed by a confirmed Stop in a state with the same `numbers`,
`number_count` and `number`, returns with `number_count = c + 1` and
`numbers[0..c+1)` pairwise distinct and all in [0,31]. -/
theorem draw_then_stop_distinct (tr : List Event) (s s1 t : State) (samples : List Nat)
    (c : Nat) (hreach : run init tr = .ok s)
    (hc : s.number_count = c) (hc7 : c < 7)
    (hdist : ∀ i j : Fin 7, i.val < c → j.val < c → s.numbers i = s.numbers j → i = j)
    (hdraw : TA2CCR0ISR s samples = .ok s1)
    (hn : t.numbers = s1.numbers) (hcount : t.number_count = s1.number_count)
    (hnum : t.number = s1.number)
    (hb : t.button_pressed = STOP) (hp : t.P1IN &&& BIT4 = 0) :
    ∃ s2, TA1CCR0ISR t = .ok s2 ∧ s2.number_count = c + 1 ∧
      (∀ i j : Fin 7, i.val < c + 1 → j.val < c + 1 → s2.numbers i = s2.numbers j → i = j) ∧
      (∀ i : Fin 7, i.val < c + 1 → s2.numbers i ≤ 31) :=
  draw_then_stop_of_range s s1 t samples c hc hc7 hdist
    (fun i _ => (inRange_run tr init s inRange_init hreach).1 i)
    hdraw hn hcount hnum hb hp

/-- Witness for C18: after one regular draw (17) and a confirmed Start, the
samples 17, 49 (= 17 mod 32) and 3 give the candidate 3, and Stop is
confirmed. -/
theorem draw_then_stop_distinct_witness :
    drawn (stateAfter oneDraw) = [17] ∧
    ∃ s2, TA1CCR0ISR { (display { stateAfter oneDraw with number := 3 } 3)
                       with button_pressed := STOP, P1IN := 0xEF } = .ok s2 ∧
      s2.number_count = 1 + 1 ∧
      (∀ i j : Fin 7, i.val < 1 + 1 → j.val < 1 + 1 → s2.numbers i = s2.numbers j → i = j) ∧
      (∀ i : Fin 7, i.val < 1 + 1 → s2.numbers i ≤ 31) :=
  ⟨by decide, draw_then_stop_distinct oneDraw (stateAfter oneDraw)
    (display { stateAfter oneDraw with number := 3 } 3)
    { (display { stateAfter oneDraw with number := 3 } 3)
      with button_pressed := STOP, P1IN := 0xEF }
    [17, 49, 3] 1 rfl rfl (by decide) (by decide) rfl rfl rfl rfl rfl (by decide)⟩

/-- C19: in every state reached from the start-up state by any sequence of
events (the four handlers and pin changes) the three button edge interrupts are
all disabled exactly when the debounce timer is running and all enabled exactly
when it is stopped; each handler keeps this relation whenever it returns, from
any state that has it (`TA1CCR0ISR` establishes it from any state). -/
theorem edge_mask_follows_debounce_timer :
    (∀ (tr : List Event) (s : State), run init tr = .ok s →
      (running s.TA1CTL ↔ s.P1IE &&& BUTTONS = 0) ∧
      (¬ running s.TA1CTL ↔ s.P1IE &&& BUTTONS = BUTTONS)) ∧
    (∀ s : State, maskedIffRunning s → maskedIffRunning (P1ISR s)) ∧
    (∀ s s' : State, TA1CCR0ISR s = .ok s' → maskedIffRunning s') ∧
    (∀ s s' : State, maskedIffRunning s → TA0CCR0ISR s = .ok s' → maskedIffRunning s') ∧
    (∀ (s s' : State) (samples : List Nat), maskedIffRunning s →
      TA2CCR0ISR s samples = .ok s' → maskedIffRunning s') := by
  refine ⟨?_, maskedIffRunning_P1ISR, fun s s' h => (TA1CCR0ISR_fields s s' h).1, ?_, ?_⟩
  · intro tr s h
    obtain ⟨_, _, _, hm⟩ := Inv_run tr init s Inv_init h
    have hB : BUTTONS ≠ 0 := by decide
    rcases hm with ⟨h1, h2⟩ | ⟨h1, h2⟩
    · refine ⟨⟨fun _ => h1, fun _ => h2⟩, ⟨fun hn => absurd h2 hn, fun he => ?_⟩⟩
      rw [h1] at he
      exact absurd he.symm hB
    · refine ⟨⟨fun hr => absurd hr h2, fun he => ?_⟩, ⟨fun _ => h1, fun _ => h2⟩⟩
      rw [h1] at he
      exact absurd he hB
  · intro s s' hm h
    obtain ⟨_, _, _, f4, f5⟩ := TA0CCR0ISR_fields s s' h
    unfold maskedIffRunning
    rw [f4, f5]
    exact hm
  · intro s s' samples hm h
    obtain ⟨g1, _⟩ := TA2CCR0ISR_fields s s' samples h
    rw [g1]
    exact hm

/-- Witness for C19: the Start line has fallen and its edge has been served;
the debounce timer runs and the three edge interrupts are disabled. -/
theorem edge_mask_follows_debounce_timer_witness :
    ∃ s, run init [.pins 0xDF, .edge] = .ok s ∧
      (running s.TA1CTL ↔ s.P1IE &&& BUTTONS = 0) ∧
      (¬ running s.TA1CTL ↔ s.P1IE &&& BUTTONS = BUTTONS) ∧ running s.TA1CTL :=
  have h := edge_mask_follows_debounce_timer.1 [.pins 0xDF, .edge] _ rfl
  ⟨_, rfl, h.1, h.2, by decide⟩

/-- C20: for a digit code `d` in [0,11] and any prior port contents, `WriteLed(d)`
returns, changes nothing but `P2OUT`, `P3OUT`, `P4OUT`, `P8OUT`, and each of
these ports ends as `(old | mask) & ~segtab[d]` (masks 0x48, 0x80, 0x09, 0x06):
the bits of the port outside the mask are those of `old`, and the bits inside
the mask are `mask & ~segtab[d]`, a value that depends on `d` only. -/
theorem WriteLed_segment_bits (s : State) (d : Nat) (hd : d < 12) :
    ∃ s' t2 t3 t4 t8,
      segtab2[d]? = some t2 ∧ segtab3[d]? = some t3 ∧ segtab4[d]? = some t4 ∧
      segtab8[d]? = some t8 ∧ WriteLed s d = .ok s' ∧
      s' = { s with P2OUT := s'.P2OUT, P3OUT := s'.P3OUT, P4OUT := s'.P4OUT,
                    P8OUT := s'.P8OUT } ∧
      (s'.P2OUT = (s.P2OUT ||| 0x48) &&& (0xFF ^^^ (t2 % 256)) ∧
        s'.P2OUT &&& (0xFF ^^^ 0x48) = s.P2OUT &&& (0xFF ^^^ 0x48) ∧
        s'.P2OUT &&& 0x48 = 0x48 &&& (0xFF ^^^ (t2 % 256))) ∧
      (s'.P3OUT = (s.P3OUT ||| 0x80) &&& (0xFF ^^^ (t3 % 256)) ∧
        s'.P3OUT &&& (0xFF ^^^ 0x80) = s.P3OUT &&& (0xFF ^^^ 0x80) ∧
        s'.P3OUT &&& 0x80 = 0x80 &&& (0xFF ^^^ (t3 % 256))) ∧
      (s'.P4OUT = (s.P4OUT ||| 0x09) &&& (0xFF ^^^ (t4 % 256)) ∧
        s'.P4OUT &&& (0xFF ^^^ 0x09) = s.P4OUT &&& (0xFF ^^^ 0x09) ∧
        s'.P4OUT &&& 0x09 = 0x09 &&& (0xFF ^^^ (t4 % 256))) ∧
      (s'.P8OUT = (s.P8OUT ||| 0x06) &&& (0xFF ^^^ (t8 % 256)) ∧
        s'.P8OUT &&& (0xFF ^^^ 0x06) = s.P8OUT &&& (0xFF ^^^ 0x06) ∧
        s'.P8OUT &&& 0x06 = 0x06 &&& (0xFF ^^^ (t8 % 256))) := by
  obtain ⟨h2, h3, h4, h8, m2, m3, m4, m8⟩ := segtab_entries d hd
  refine ⟨_, _, _, _, _, h2, h3, h4, h8, WriteLed_ok s d hd, rfl, ?_, ?_, ?_, ?_⟩
  · exact ⟨rfl, bits_set_clear_outside _ _ _ _ (by decide) m2, bits_set_clear_inside _ _ _⟩
  · exact ⟨rfl, bits_set_clear_outside _ _ _ _ (by decide) m3, bits_set_clear_inside _ _ _⟩
  · exact ⟨rfl, bits_set_clear_outside _ _ _ _ (by decide) m4, bits_set_clear_inside _ _ _⟩
  · exact ⟨rfl, bits_set_clear_outside _ _ _ _ (by decide) m8, bits_set_clear_inside _ _ _⟩

/-- Witness for C20: the code 10 (first end-of-game glyph) written over ports that
hold 0xFF, 0x00, 0xA5 and 0x5A. -/
theorem WriteLed_segment_bits_witness :
    ∃ s' t2 t3 t4 t8,
      segtab2[10]? = some t2 ∧ segtab3[10]? = some t3 ∧ segtab4[10]? = some t4 ∧
      segtab8[10]? = some t8 ∧
      WriteLed { init with P2OUT := 0xFF, P3OUT := 0x00, P4OUT := 0xA5, P8OUT := 0x5A } 10
        = .ok s' ∧
      s' = { ({ init with P2OUT := 0xFF, P3OUT := 0x00, P4OUT := 0xA5, P8OUT := 0x5A } : State)
             with P2OUT := s'.P2OUT, P3OUT := s'.P3OUT, P4OUT := s'.P4OUT, P8OUT := s'.P8OUT } ∧
      (s'.P2OUT = (0xFF ||| 0x48) &&& (0xFF ^^^ (t2 % 256)) ∧
        s'.P2OUT &&& (0xFF ^^^ 0x48) = 0xFF &&& (0xFF ^^^ 0x48) ∧
        s'.P2OUT &&& 0x48 = 0x48 &&& (0xFF ^^^ (t2 % 256))) ∧
      (s'.P3OUT = (0x00 ||| 0x80) &&& (0xFF ^^^ (t3 % 256)) ∧
        s'.P3OUT &&& (0xFF ^^^ 0x80) = 0x00 &&& (0xFF ^^^ 0x80) ∧
        s'.P3OUT &&& 0x80 = 0x80 &&& (0xFF ^^^ (t3 % 256))) ∧
      (s'.P4OUT = (0xA5 ||| 0x09) &&& (0xFF ^^^ (t4 % 256)) ∧
        s'.P4OUT &&& (0xFF ^^^ 0x09) = 0xA5 &&& (0xFF ^^^ 0x09) ∧
        s'.P4OUT &&& 0x09 = 0x09 &&& (0xFF ^^^ (t4 % 256))) ∧
      (s'.P8OUT = (0x5A ||| 0x06) &&& (0xFF ^^^ (t8 % 256)) ∧
        s'.P8OUT &&& (0xFF ^^^ 0x06) = 0x5A &&& (0xFF ^^^ 0x06) ∧
        s'.P8OUT &&& 0x06 = 0x06 &&& (0xFF ^^^ (t8 % 256))) :=
  WriteLed_segment_bits _ 10 (by decide)

end Loto
